import Mathlib

/-!
# Verification of the idutils persistent-identifier library

This file is a shallow embedding, in Lean 4, of the scheme-detection,
normalization and URL-resolution core of the `idutils` Python library
(`idutils/utils.py`, `idutils/validators.py`, `idutils/detectors.py`,
`idutils/normalizers.py`, `idutils/ext.py`, `idutils/schemes.py`), together
with theorems settling a list of claims about that code.

Modelling conventions:

* Python strings are modelled as `List Char` (`Str`). All string-level
  operations (`replace`, `lower`, `startswith`, slicing, `split`, …) are
  translated explicitly. Case operations and character classes are modelled
  for ASCII, which covers every string this development evaluates; Python's
  Unicode-aware behaviour on non-ASCII input is outside the model.
* Python regular expressions are translated into hand-written matchers that
  follow the structure of each pattern, reproducing `re.match` anchoring,
  greedy/backtracking preference where it is observable (capture groups),
  and the Python `$` semantics (end of string, or just before a single
  trailing newline).
* Code that can raise an exception for some string input is modelled with
  `Except Unit`; `.error ()` models a raised `ValueError` (or, for
  normalizers applied to non-matching values, the `AttributeError` CPython
  raises on `None.group`). Code that cannot raise is a plain function.
* `urllib.parse.urlparse` is modelled after CPython 3.10
  (`urllib/parse.py`): leading/trailing C0-control-or-space stripping,
  removal of tab/CR/LF, scheme splitting, netloc splitting with the
  "Invalid IPv6 URL" `ValueError` on unbalanced square brackets, fragment,
  query and params splitting, and the `_checknetloc` netloc check with its
  `ValueError` on non-ASCII netlocs whose NFKC normalization introduces a
  URL delimiter. The NFKC collaborator itself is modelled as the identity,
  which is exact on ASCII netlocs (CPython returns at the `isascii` early
  exit before consulting NFKC) but silences the NFKC-expansion error on
  non-ASCII netlocs (CPython raises on `http://℀`, this model does not);
  accordingly, the no-raise theorem for the `urlparse`-based validators
  assumes an all-ASCII input, and its proof uses only the `isascii` early
  exit.
* The external collaborators `isbnlib` (ISBN checksums and
  canonicalization) and `unicodedata.normalize` are not part of the
  repository; they are modelled from the specification, and each such
  definition carries a doc comment starting with `Modelled from the spec:`.
* The custom-scheme registry (`idutils/proxies.py` is not in the sources;
  only its callers are) is modelled from the specification as explicit
  parameters: the detector, normalizer and URL resolver take the lists of
  custom validators / filters / normalizers / URL generators that
  `current_idutils.pick_scheme_key` would supply, in registration order.
-/

/-- Python `str` values, modelled as lists of characters. -/
abbrev Str := List Char

/-- The characters of a Lean string literal, used to write concrete inputs. -/
def str (s : String) : Str := s.data

/-- The ASCII upper/lower case pairs, used by the case maps below. -/
def asciiCasePairs : List (Char × Char) :=
  [('A', 'a'), ('B', 'b'), ('C', 'c'), ('D', 'd'), ('E', 'e'), ('F', 'f'),
   ('G', 'g'), ('H', 'h'), ('I', 'i'), ('J', 'j'), ('K', 'k'), ('L', 'l'),
   ('M', 'm'), ('N', 'n'), ('O', 'o'), ('P', 'p'), ('Q', 'q'), ('R', 'r'),
   ('S', 's'), ('T', 't'), ('U', 'u'), ('V', 'v'), ('W', 'w'), ('X', 'x'),
   ('Y', 'y'), ('Z', 'z')]

/-- ASCII lower-casing of one character (Python `str.lower`, ASCII part):
table lookup over `asciiCasePairs`. -/
def asciiLowerChar (c : Char) : Char :=
  match asciiCasePairs.find? (fun p => p.1 = c) with
  | some p => p.2
  | none => c

/-- ASCII upper-casing of one character (Python `str.upper`, ASCII part). -/
def asciiUpperChar (c : Char) : Char :=
  match asciiCasePairs.find? (fun p => p.2 = c) with
  | some p => p.1
  | none => c

/-- Python `s.lower()` (ASCII model). -/
def pyLower (s : Str) : Str := s.map asciiLowerChar

/-- Python `s.upper()` (ASCII model). -/
def pyUpper (s : Str) : Str := s.map asciiUpperChar

/-- Python `s.startswith(p)`. -/
def startsWith (s p : Str) : Bool := p.isPrefixOf s

/-- Python's `\s` character class (ASCII part): space, tab, LF, CR, FF, VT. -/
def isPySpace (c : Char) : Bool :=
  c = ' ' ∨ c = '\t' ∨ c = '\n' ∨ c = '\x0d' ∨ c = '\x0c' ∨ c = '\x0b'

/-- Python `s.replace(c, "")` for a single-character needle: drops every
occurrence of `c`. -/
def removeChar (c : Char) (s : Str) : Str := s.filter (· ≠ c)

/-- Python `s.replace(old, "")` for a multi-character needle, on fuel for
structural recursion (each step consumes at least one character, so
`s.length` fuel always suffices and the zero-fuel branch is unreachable
from `removeSubstr`). -/
def removeSubstrF (old : Str) : Nat → Str → Str
  | 0, s => s
  | fuel + 1, s =>
      match s with
      | [] => []
      | c :: rest =>
          if old ≠ [] ∧ startsWith (c :: rest) old then
            removeSubstrF old fuel ((c :: rest).drop old.length)
          else c :: removeSubstrF old fuel rest

/-- Python `s.replace(old, "")` for a multi-character needle: removes the
non-overlapping occurrences left to right. -/
def removeSubstr (old : Str) (s : Str) : Str := removeSubstrF old s.length s

/-- Python `s.strip()`: removes leading and trailing whitespace. -/
def pyStrip (s : Str) : Str :=
  ((s.dropWhile isPySpace).reverse.dropWhile isPySpace).reverse

/-- Python `int(c)` on a single character: its digit value, or a raised
`ValueError` (modelled by `none`). -/
def digitVal (c : Char) : Option Nat :=
  if c.isDigit then some (c.toNat - '0'.toNat) else none

/-- `idutils.utils._convert_x_to_10`: `int(x) if x != "X" else 10`. -/
def _convert_x_to_10 (c : Char) : Option Nat :=
  if c = 'X' then some 10 else digitVal c

/-- Python `int(s)` for a non-empty all-digit string; `none` models the
raised `ValueError` otherwise. -/
def parseNat (s : Str) : Option Nat :=
  if s = [] then none
  else s.foldlM (fun acc c => (digitVal c).map (fun d => acc * 10 + d)) 0

/-- Value of a hexadecimal digit (`int(x, 16)`); `none` models `ValueError`. -/
def hexVal (c : Char) : Option Nat :=
  if c.isDigit then some (c.toNat - '0'.toNat)
  else if 'a' ≤ c ∧ c ≤ 'f' then some (c.toNat - 'a'.toNat + 10)
  else if 'A' ≤ c ∧ c ≤ 'F' then some (c.toNat - 'A'.toNat + 10)
  else none

/-- The digit character for a value `< 10` (Python `str(d)`). -/
def digitChar (n : Nat) : Char := Char.ofNat ('0'.toNat + n)

/-- Python `hex(r)[2:].upper()` for a single hex digit value `< 16`. -/
def hexDigitCharUpper (n : Nat) : Char :=
  if n < 10 then digitChar n else Char.ofNat ('A'.toNat + (n - 10))

/-- Python `s.split(sep)` for a one-character separator. -/
def pySplit (sep : Char) (s : Str) : List Str :=
  match s with
  | [] => [[]]
  | c :: rest =>
      let r := pySplit sep rest
      if c = sep then [] :: r
      else match r with
           | [] => [[c]]
           | h :: t => (c :: h) :: t

/-- A maximal run of characters satisfying `p`, plus the remainder. -/
def takeRun (p : Char → Bool) (s : Str) : Str × Str :=
  (s.takeWhile p, s.dropWhile p)

/-! ## The `urllib.parse` collaborator (CPython 3.10 `urlsplit`/`urlparse`) -/

/-- Index of the first occurrence of a character satisfying `p` at position
`≥ start` (Python `s.find(c, start)`), or `none`. -/
def findIdxFrom (p : Char → Bool) (s : Str) (start : Nat) : Option Nat :=
  match (s.drop start).findIdx? p with
  | some j => some (start + j)
  | none => none

/-- Index of the last occurrence of `c` (Python `s.rfind(c)`), or `none`. -/
def rfindIdx (c : Char) (s : Str) : Option Nat :=
  match s.reverse.findIdx? (· = c) with
  | some j => some (s.length - 1 - j)
  | none => none

/-- Split at the first occurrence of `c` (Python `s.split(c, 1)` when `c`
occurs in `s`): the part before and the part after. -/
def splitOnce (c : Char) (s : Str) : Str × Str :=
  (s.takeWhile (· ≠ c), (s.dropWhile (· ≠ c)).drop 1)

/-- CPython `urllib.parse`: WHATWG C0-control-or-space strip applied to the
URL (leading and trailing characters with code point `≤ 0x20`). -/
def stripC0 (s : Str) : Str :=
  ((s.dropWhile (·.toNat ≤ 0x20)).reverse.dropWhile (·.toNat ≤ 0x20)).reverse

/-- CPython `urllib.parse`: removal of the unsafe bytes tab, CR and LF from
anywhere in the URL. -/
def removeUnsafeBytes (s : Str) : Str :=
  s.filter (fun c => ¬(c = '\t' ∨ c = '\x0d' ∨ c = '\n'))

/-- CPython `urllib.parse.scheme_chars`. -/
def isSchemeChar (c : Char) : Bool :=
  c.isAlpha ∨ c.isDigit ∨ c = '+' ∨ c = '-' ∨ c = '.'

/-- Result of `urllib.parse.urlsplit`. -/
structure SplitResult where
  scheme : Str
  netloc : Str
  path : Str
  query : Str
  fragment : Str
  deriving Repr, DecidableEq

/-- The scheme-splitting step of CPython 3.10 `urlsplit` (default
`scheme=''`): returns `(scheme, remainder)`. -/
def splitScheme (url : Str) : Str × Str :=
  let i := url.findIdx (· = ':')
  let firstOk : Bool :=
    match url with
    | [] => false
    | c :: _ => decide (c.toNat < 128) && c.isAlpha
  let hasScheme : Bool :=
    decide (i < url.length) && decide (0 < i) && firstOk &&
    ((url.take i).drop 1).all isSchemeChar
  (if hasScheme then pyLower (url.take i) else [],
   if hasScheme then url.drop (i + 1) else url)

/-- The netloc-splitting step of CPython 3.10 `urlsplit` (`_splitnetloc`
when the remainder starts with `//`): returns `(netloc, remainder)`. -/
def splitNetloc (url : Str) : Str × Str :=
  if startsWith url (str "//") then
    ((url.drop 2).takeWhile (fun c => ¬(c = '/' ∨ c = '?' ∨ c = '#')),
     (url.drop 2).dropWhile (fun c => ¬(c = '/' ∨ c = '?' ∨ c = '#')))
  else ([], url)

/-- Modelled from the spec: `unicodedata.normalize("NFKC", ·)` from the
external `unicodedata` collaborator, as consulted by `_checknetloc`. NFKC
normalization is the identity on ASCII strings; this model extends that
identity to every string, so the NFKC-expansion branch of `_checknetloc`
below never fires — the model is exact on ASCII netlocs (where CPython
returns at the `isascii` early exit without consulting NFKC) and silences
the `ValueError` CPython raises on a non-ASCII netloc whose NFKC form
introduces a URL delimiter (e.g. `℀` → `a/c`). No theorem of this file may
therefore assert absence of errors for a non-ASCII input; the no-raise
theorem below assumes an all-ASCII input and its proof goes through the
`isascii` early exit only. -/
def unicodedata_nfkc (s : Str) : Str := s

/-- CPython 3.10 `urllib.parse._checknetloc`: an empty or all-ASCII netloc
is accepted at the `isascii` early exit; otherwise the netloc with `@`,
`:`, `#` and `?` removed is NFKC-normalized, and the netloc is rejected
when normalization changed it and the result contains one of `/?#@:`. -/
def _checknetloc (netloc : Str) : Except Unit Unit :=
  if netloc = [] ∨ netloc.all (fun c => c.toNat < 128) then .ok ()
  else
    let n := netloc.filter (fun c => ¬(c = '@' ∨ c = ':' ∨ c = '#' ∨ c = '?'))
    let netloc2 := unicodedata_nfkc n
    if n = netloc2 then .ok ()
    else if (str "/?#@:").any (fun c => c ∈ netloc2) then .error ()
    else .ok ()

/-- `urllib.parse.urlsplit` (CPython 3.10), for the default arguments used by
the validators (`scheme=''`, `allow_fragments=True`). `.error ()` models a
raised `ValueError`: either `"Invalid IPv6 URL"` on a netloc with
unbalanced square brackets, or the `_checknetloc` rejection. CPython calls
`_checknetloc` after the fragment and query splits; those splits are pure,
so the call is hoisted above them here without observable difference. -/
def urlsplit (url0 : Str) : Except Unit SplitResult :=
  let url := removeUnsafeBytes (stripC0 url0)
  let sp := splitScheme url
  let scheme := sp.1
  let np := splitNetloc sp.2
  let netloc := np.1
  let url := np.2
  if ('[' ∈ netloc ∧ ']' ∉ netloc) ∨ (']' ∈ netloc ∧ '[' ∉ netloc) then
    .error ()
  else
    match _checknetloc netloc with
    | .error e => .error e
    | .ok _ =>
        -- fragment
        let (url, fragment) := if '#' ∈ url then splitOnce '#' url else (url, [])
        -- query
        let (url, query) := if '?' ∈ url then splitOnce '?' url else (url, [])
        .ok ⟨scheme, netloc, url, query, fragment⟩

/-- Result of `urllib.parse.urlparse`. -/
structure ParseResult where
  scheme : Str
  netloc : Str
  path : Str
  params : Str
  query : Str
  fragment : Str
  deriving Repr, DecidableEq

/-- `urllib.parse.uses_params`. -/
def uses_params : List Str :=
  ["", "ftp", "hdl", "prospero", "http", "imap", "https", "shttp", "rtsp",
   "rtspu", "sip", "sips", "mms", "sftp", "tel"].map str

/-- `urllib.parse._splitparams`. -/
def _splitparams (url : Str) : Str × Str :=
  if '/' ∈ url then
    match rfindIdx '/' url with
    | some k =>
        match findIdxFrom (· = ';') url k with
        | some i => (url.take i, url.drop (i + 1))
        | none => (url, [])
    | none => (url, [])
  else if ';' ∈ url then
    let (a, b) := splitOnce ';' url
    (a, b)
  else (url, [])

/-- `urllib.parse.urlparse` (CPython 3.10), default arguments. -/
def urlparse (url : Str) : Except Unit ParseResult :=
  match urlsplit url with
  | .error e => .error e
  | .ok s =>
      let (path, params) :=
        if s.scheme ∈ uses_params ∧ ';' ∈ s.path then _splitparams s.path
        else (s.path, [])
      .ok ⟨s.scheme, s.netloc, path, params, s.query, s.fragment⟩

/-! ## The `isbnlib` collaborator -/

/-- Modelled from the spec: the external `isbnlib` collaborator's
`canonical` (not part of this repository; the spec treats the ISBN
checksum/format validators as black-box collaborators). It keeps only ISBN
characters (digits and `X`/`x`), upper-cases a trailing `x`, and rejects a
string with an `X` anywhere but the last position. The repository's test
fixture `("urn:isbn:0451450523", ["urn", "isbn"])` documents this
digit-extraction behaviour. -/
def isbnlib_canonical (v : Str) : Str :=
  let numb := v.filter (fun c => c.isDigit || c = 'X' || c = 'x')
  let numb :=
    match numb.reverse with
    | [] => []
    | c :: rest => ((if c = 'x' then 'X' else c) :: rest).reverse
  if (numb.dropLast).any (fun c => c = 'X' ∨ c = 'x') then [] else numb

/-- Modelled from the spec: `isbnlib`'s ISBN-10 check digit (weighted digit
sum modulo 11, `X` standing for 10). -/
def isbnlib_check_digit10 (first9 : List Nat) : Char :=
  let v := (first9.reverse.enum.map (fun p => (p.1 + 2) * p.2)).sum
  let r := v % 11
  let t := if r = 0 then 0 else 11 - r
  if t = 10 then 'X' else digitChar t

/-- Modelled from the spec: `isbnlib.is_isbn10` — canonicalize, require
length 10, compare the embedded check digit. -/
def is_isbn10 (v : Str) : Bool :=
  let c := isbnlib_canonical v
  if c.length ≠ 10 then false
  else
    match (c.dropLast).mapM digitVal, c.getLast? with
    | some ds, some lastc => isbnlib_check_digit10 ds == lastc
    | _, _ => false

/-- Modelled from the spec: `isbnlib`'s ISBN-13 check digit (weights 1 and 3
alternating, modulo 10). -/
def isbnlib_check_digit13 (first12 : List Nat) : Char :=
  let v := (first12.enum.map (fun p => (p.1 % 2 * 2 + 1) * p.2)).sum
  digitChar ((10 - v % 10) % 10)

/-- Modelled from the spec: `isbnlib.is_isbn13` — canonicalize, require
length 13 and a `978`/`979` prefix, compare the embedded check digit. -/
def is_isbn13 (v : Str) : Bool :=
  let c := isbnlib_canonical v
  if c.length ≠ 13 then false
  else if ¬(startsWith c (str "978") ∨ startsWith c (str "979")) then false
  else
    match (c.dropLast).mapM digitVal, c.getLast? with
    | some ds, some lastc => isbnlib_check_digit13 ds == lastc
    | _, _ => false

/-- Modelled from the spec: `isbnlib.to_isbn13` — prepend `978` to the first
nine canonical digits and recompute the check digit. -/
def isbnlib_to_isbn13 (v : Str) : Str :=
  let base := str "978" ++ (isbnlib_canonical v).take 9
  match base.mapM digitVal with
  | some ds => base ++ [isbnlib_check_digit13 ds]
  | none => base

/-- Modelled from the spec: `isbnlib.mask` renders an ISBN in its canonical
hyphenated grouping. The hyphen positions come from the ISBN agency's
registration-group range data, an external data set that is not modelled;
this model returns the canonical (unhyphenated) digit string. No theorem in
this development evaluates it. -/
def isbnlib_mask (v : Str) : Str := isbnlib_canonical v

/-! ## Checksum validators (`idutils/validators.py`) -/

/-- `validators.is_ean13`. -/
def is_ean13 (v : Str) : Bool :=
  if v.length ≠ 13 then false
  else
    match (v.dropLast).mapM digitVal, v.getLast? >>= digitVal with
    | some ds, some lastd =>
        let r := (ds.enum.map (fun p => (if p.1 % 2 = 0 then 1 else 3) * p.2)).sum
        (10 - r % 10) % 10 == lastd
    | _, _ => false

/-- `validators.is_ean8`. -/
def is_ean8 (v : Str) : Bool :=
  if v.length ≠ 8 then false
  else
    match (v.dropLast).mapM digitVal, v.getLast? >>= digitVal with
    | some ds, some lastd =>
        let r := (ds.enum.map (fun p => (if p.1 % 2 = 0 then 3 else 1) * p.2)).sum
        (10 - r % 10) % 10 == lastd
    | _, _ => false

/-- `validators.is_ean`. -/
def is_ean (v : Str) : Bool := is_ean13 v || is_ean8 v

/-- `validators.is_isbn`: ISBN-10 or ISBN-13, additionally requiring a
`978`/`979` start or the value not being a valid EAN-13. -/
def is_isbn (v : Str) : Bool :=
  if is_isbn10 v || is_isbn13 v then
    (v.take 3 = str "978" ∨ v.take 3 = str "979") || !is_ean13 v
  else false

/-- `validators.is_issn`. -/
def is_issn (v : Str) : Bool :=
  let val := pyUpper (removeChar ' ' (removeChar '-' v))
  if val.length ≠ 8 then false
  else
    match val.mapM _convert_x_to_10 with
    | some ds => (ds.enum.map (fun p => (8 - p.1) * p.2)).sum % 11 == 0
    | none => false

/-- `validators.is_istc`. -/
def is_istc (v : Str) : Bool :=
  let val := pyUpper (removeChar ' ' (removeChar '-' v))
  if val.length ≠ 16 then false
  else
    match (val.dropLast).mapM hexVal, val.getLast? with
    | some ds, some lastc =>
        let seq := fun (i : Nat) => if i % 4 = 0 then 11
                   else if i % 4 = 1 then 9 else if i % 4 = 2 then 3 else 1
        let r := (ds.enum.map (fun p => p.2 * seq p.1)).sum
        hexDigitCharUpper (r % 16) == lastc
    | _, _ => false

/-- `validators.is_isni`. -/
def is_isni (v : Str) : Bool :=
  let val := pyUpper (removeChar ' ' (removeChar '-' v))
  if val.length ≠ 16 then false
  else
    match (val.dropLast).mapM digitVal, val.getLast? >>= _convert_x_to_10 with
    | some ds, some lastd =>
        let r := ds.foldl (fun r d => (r + d) * 2) 0
        (12 - r % 11) % 11 == lastd
    | _, _ => false

/-- `idutils.utils.orcid_urls`. -/
def orcid_urls : List Str := [str "http://orcid.org/", str "https://orcid.org/"]

/-- `idutils.utils.orcid_isni_ranges`. -/
def orcid_isni_ranges : List (Nat × Nat) :=
  [(15000000, 35000000), (900000000000, 900100000000)]

/-- The `for url in urls: if val.startswith(url): val = val[len(url):]; break`
idiom used by `is_orcid`, `normalize_orcid` and `normalize_viaf`. -/
def stripFirstMatching (urls : List Str) (v : Str) : Str :=
  match urls with
  | [] => v
  | u :: rest => if startsWith v u then v.drop u.length else stripFirstMatching rest v

/-- `validators.is_orcid`. When `is_isni` holds, the fifteen leading
characters are all digits, so the `int(val[:-1], 10)` conversion cannot
raise; the unreachable `none` branch returns `false`. -/
def is_orcid (v : Str) : Bool :=
  let val := stripFirstMatching orcid_urls v
  let val := removeChar ' ' (removeChar '-' val)
  if is_isni val then
    match parseNat val.dropLast with
    | some n => orcid_isni_ranges.any (fun p => p.1 ≤ n ∧ n ≤ p.2)
    | none => false
  else false

/-! ## Regular-expression matchers (`idutils/utils.py`)

Each Python pattern is translated into a matcher that follows the pattern's
structure. Comments note where greedy matching is deterministic (the
following literal cannot occur inside the preceding character class), and
where explicit backtracking is reproduced. -/

/-- Python `$` outside MULTILINE mode: matches at the end of the string, or
just before a newline at the end of the string. -/
def dollarEnd (rest : Str) : Bool := rest = [] ∨ rest = ['\n']

/-- `.*$`: the characters matched by the greedy `.*` (`.` excludes the
newline), or `none` when no split satisfies the trailing `$`. -/
def dotStarDollar (s : Str) : Option Str :=
  let core := if s.getLast? = some '\n' then s.dropLast else s
  if '\n' ∈ core then none else some core

/-- `.+$`: as `dotStarDollar` but requiring at least one character. -/
def dotPlusDollar (s : Str) : Option Str :=
  match dotStarDollar s with
  | some core => if core = [] then none else some core
  | none => none

/-- Exactly `n` characters satisfying `p`, plus the remainder. -/
def takeExact (n : Nat) (p : Char → Bool) (s : Str) : Option (Str × Str) :=
  if (s.take n).length = n ∧ (s.take n).all p then some (s.take n, s.drop n)
  else none

/-- Case-insensitive literal prefix test (`re.I` literals); `p` is written
in lower case. -/
def ciStarts (v : Str) (p : String) : Bool := startsWith (pyLower v) (str p)

/-- Matches a literal (case-insensitively) in which `.` stands for the
regex `.` metacharacter (any character but newline); used for the unescaped
dots of `pmid_regexp`. Returns the remainder. -/
def ciLitWithDots : List Char → Str → Option Str
  | [], s => some s
  | p :: ps, c :: cs =>
      if p = '.' then (if c ≠ '\n' then ciLitWithDots ps cs else none)
      else if asciiLowerChar c = asciiLowerChar p then ciLitWithDots ps cs
      else none
  | _ :: _, [] => none

/-! ### DOI: `(doi:\s*|(?:https?://)?(?:dx\.)?doi\.org/)?(10\.\d+(\.\d+)*/.+)$`, `re.I` -/

/-- The `(\.\d+)*` loop of the DOI body: greedily consumes `.`-plus-digits
runs (deterministic: stopping earlier leaves a `.`/digit where `/` is
required). Returns consumed part and remainder. Runs on fuel for structural
recursion; every iteration consumes at least two characters, so the
`t.length` fuel of the wrapper below always suffices. -/
def dotDigitRunsF : Nat → Str → Str × Str
  | 0, t => ([], t)
  | fuel + 1, t =>
      match t with
      | '.' :: rest =>
          let run := rest.takeWhile Char.isDigit
          if run = [] then ([], t)
          else
            let (c2, r2) := dotDigitRunsF fuel (rest.dropWhile Char.isDigit)
            ('.' :: run ++ c2, r2)
      | _ => ([], t)

/-- The `(\.\d+)*` loop of the DOI body. -/
def dotDigitRuns (t : Str) : Str × Str := dotDigitRunsF t.length t

/-- The DOI body `10\.\d+(\.\d+)*/.+` followed by `$`: returns group 2 of
`doi_regexp`. -/
def doiBody (s : Str) : Option Str :=
  if startsWith s (str "10.") then
    let t := s.drop 3
    let d1 := t.takeWhile Char.isDigit
    if d1 = [] then none
    else
      let (dots, t2) := dotDigitRuns (t.dropWhile Char.isDigit)
      match t2 with
      | '/' :: t3 =>
          match dotPlusDollar t3 with
          | some core => some (str "10." ++ d1 ++ dots ++ '/' :: core)
          | none => none
      | _ => none
  else none

/-- `doi_regexp.match`: the optional prefix alternatives are pairwise
exclusive literals; on a failing body the engine falls back to the
prefix-absent branch (which then fails on the `10.` literal, reproduced
here). For the `doi:\s*` branch the greedy `\s*` is deterministic because
the body must start with `1`. Returns group 2. -/
def doiMatch (v : Str) : Option Str :=
  if ciStarts v "doi:" then
    doiBody ((v.drop 4).dropWhile isPySpace)
  else
    let combos := ["https://dx.doi.org/", "https://doi.org/", "http://dx.doi.org/",
                   "http://doi.org/", "dx.doi.org/", "doi.org/"]
    match combos.find? (fun p => ciStarts v p) with
    | some p =>
        match doiBody (v.drop (str p).length) with
        | some g => some g
        | none => doiBody v
    | none => doiBody v

/-! ### Handle: `(hdl:\s*|(?:https?://)?hdl\.handle\.net/)?([^/.]+(\.[^/.]+)*/.*)$`, `re.I` -/

/-- The `(\.[^/.]+)*` loop of the Handle body (deterministic: stopping
earlier leaves a `.` or a `[^/.]` character where `/` is required), on fuel
as in `dotDigitRunsF`. -/
def handleDotRunsF : Nat → Str → Str × Str
  | 0, t => ([], t)
  | fuel + 1, t =>
      match t with
      | '.' :: rest =>
          let run := rest.takeWhile (fun c => ¬(c = '/' ∨ c = '.'))
          if run = [] then ([], t)
          else
            let (c2, r2) := handleDotRunsF fuel (rest.dropWhile (fun c => ¬(c = '/' ∨ c = '.')))
            ('.' :: run ++ c2, r2)
      | _ => ([], t)

/-- The `(\.[^/.]+)*` loop of the Handle body. -/
def handleDotRuns (t : Str) : Str × Str := handleDotRunsF t.length t

/-- The Handle body `[^/.]+(\.[^/.]+)*/.*` followed by `$`: returns group 2
of `handle_regexp`. -/
def handleBody (s : Str) : Option Str :=
  let na := s.takeWhile (fun c => ¬(c = '/' ∨ c = '.'))
  if na = [] then none
  else
    let (dots, t2) := handleDotRuns (s.dropWhile (fun c => ¬(c = '/' ∨ c = '.')))
    match t2 with
    | '/' :: t3 =>
        match dotStarDollar t3 with
        | some core => some (na ++ dots ++ '/' :: core)
        | none => none
    | _ => none

/-- Greedy-with-backtracking `\s*`: try the maximal whitespace run first,
then shorter runs (the Handle body class `[^/.]` can itself contain
spaces, so the backtracking is observable). `k` counts down from the
maximal run length. -/
def tryDropSpaces (f : Str → Option Str) (s : Str) : Nat → Option Str
  | 0 => f s
  | k + 1 =>
      match f (s.drop (k + 1)) with
      | some g => some g
      | none => tryDropSpaces f s k

/-- `handle_regexp.match`: returns group 2. -/
def handleMatch (v : Str) : Option Str :=
  if ciStarts v "hdl:" then
    let rest := v.drop 4
    match tryDropSpaces handleBody rest (rest.takeWhile isPySpace).length with
    | some g => some g
    | none => handleBody v
  else
    let combos := ["https://hdl.handle.net/", "http://hdl.handle.net/", "hdl.handle.net/"]
    match combos.find? (fun p => ciStarts v p) with
    | some p =>
        match handleBody (v.drop (str p).length) with
        | some g => some g
        | none => handleBody v
    | none => handleBody v

/-! ### VIAF: `(viaf:|VIAF:)?([1-9]\d(?:\d{0,7}|\d{17,20}))($|\/|\?|#)`, `re.I` -/

/-- `idutils.utils.viaf_urls`. -/
def viaf_urls : List Str :=
  [str "http://viaf.org/viaf/", str "https://viaf.org/viaf/",
   str "http://www.viaf.org/viaf/", str "https://www.viaf.org/viaf/"]

/-- The terminator group `($|\/|\?|#)` of `viaf_regexp`: number of
characters it consumes, `$` being tried first. -/
def viafTermLen (rest : Str) : Option Nat :=
  if rest = [] ∨ rest = ['\n'] then some 0
  else
    match rest with
    | c :: _ => if c = '/' ∨ c = '?' ∨ c = '#' then some 1 else none
    | [] => none

/-- `viaf_regexp.match`: length of the full match (group 0). The quantified
digit runs are deterministic: a shorter run leaves a digit where the
terminator group is required, so only the maximal run length `m` can
succeed, with `m ≤ 7` (first alternative) or `17 ≤ m ≤ 20` (second). -/
def viafMatch (v : Str) : Option Nat :=
  let attempt := fun (p : Nat) (t : Str) =>
    match t with
    | c0 :: c1 :: rest0 =>
        if ('1' ≤ c0 ∧ c0 ≤ '9') ∧ c1.isDigit then
          let m := (rest0.takeWhile Char.isDigit).length
          let rest := rest0.dropWhile Char.isDigit
          if m ≤ 7 ∨ (17 ≤ m ∧ m ≤ 20) then
            match viafTermLen rest with
            | some t2 => some (p + 2 + m + t2)
            | none => none
          else none
        else none
    | _ => none
  if ciStarts v "viaf:" then
    match attempt 5 (v.drop 5) with
    | some n => some n
    | none => attempt 0 v
  else attempt 0 v

/-- `validators.is_viaf`: a known VIAF host URL as prefix, or a regex match
whose `group()` equals the whole value. -/
def is_viaf (v : Str) : Bool :=
  if viaf_urls.any (fun u => startsWith v u) then true
  else
    match viafMatch v with
    | some n => n = v.length
    | none => false

/-! ### GND: `(gnd:|GND:|https?://d-nb\.info/gnd/|d-nb\.info/gnd/)?(1[012]?\d{7}[0-9X]|[47]\d{6}-\d|[1-9]\d{0,7}-[0-9X]|3\d{7}[0-9X])` (case-sensitive, unanchored at the end) -/

/-- Is a check character `[0-9X]`. -/
def isDigitOrX (c : Char) : Bool := c.isDigit ∨ c = 'X'

/-- The id alternatives of `gnd_regexp` (group 2), tried in pattern order.
The `[012]?` of the first alternative is greedy with backtracking; the
`\d{0,7}` of the third is deterministic (a shorter run leaves a digit where
`-` is required). -/
def gndIdMatch (t : Str) : Option Str :=
  let alt1 :=
    match t with
    | '1' :: rest =>
        let withOpt :=
          match rest with
          | d :: rest2 =>
              if d = '0' ∨ d = '1' ∨ d = '2' then
                match takeExact 7 Char.isDigit rest2 with
                | some (ds, r) =>
                    match r with
                    | x :: _ => if isDigitOrX x then some ('1' :: d :: ds ++ [x]) else none
                    | [] => none
                | none => none
              else none
          | [] => none
        match withOpt with
        | some g => some g
        | none =>
            match takeExact 7 Char.isDigit rest with
            | some (ds, r) =>
                match r with
                | x :: _ => if isDigitOrX x then some ('1' :: ds ++ [x]) else none
                | [] => none
            | none => none
    | _ => none
  match alt1 with
  | some g => some g
  | none =>
  let alt2 :=
    match t with
    | c :: rest =>
        if c = '4' ∨ c = '7' then
          match takeExact 6 Char.isDigit rest with
          | some (ds, r) =>
              match r with
              | '-' :: x :: _ => if x.isDigit then some (c :: ds ++ ['-', x]) else none
              | _ => none
          | none => none
        else none
    | [] => none
  match alt2 with
  | some g => some g
  | none =>
  let alt3 :=
    match t with
    | c :: rest =>
        if '1' ≤ c ∧ c ≤ '9' then
          let run := rest.takeWhile Char.isDigit
          if run.length ≤ 7 then
            match rest.dropWhile Char.isDigit with
            | '-' :: x :: _ => if isDigitOrX x then some (c :: run ++ ['-', x]) else none
            | _ => none
          else none
        else none
    | [] => none
  match alt3 with
  | some g => some g
  | none =>
    match t with
    | '3' :: rest =>
        match takeExact 7 Char.isDigit rest with
        | some (ds, r) =>
            match r with
            | x :: _ => if isDigitOrX x then some ('3' :: ds ++ [x]) else none
            | [] => none
        | none => none
    | _ => none

/-- `gnd_regexp.match` (prefix alternatives are pairwise exclusive
literals; a failing id falls back to the prefix-absent branch): group 2. -/
def gndMatch (v : Str) : Option Str :=
  let prefixes := [str "gnd:", str "GND:", str "https://d-nb.info/gnd/",
                   str "http://d-nb.info/gnd/", str "d-nb.info/gnd/"]
  match prefixes.find? (fun p => startsWith v p) with
  | some p =>
      match gndIdMatch (v.drop p.length) with
      | some g => some g
      | none => gndIdMatch v
  | none => gndIdMatch v

/-! ### ROR: `(?:https?://)?(?:ror\.org/)?(0\w{6}\d{2})$`, `re.I` -/

/-- Python `\w` (ASCII model): letters, digits and underscore. -/
def isWordChar (c : Char) : Bool := c.isAlpha ∨ c.isDigit ∨ c = '_'

/-- The ROR body `(0\w{6}\d{2})$`: group 1. -/
def rorBody (t : Str) : Option Str :=
  match t with
  | '0' :: rest =>
      match takeExact 6 isWordChar rest with
      | some (ws, r) =>
          match takeExact 2 Char.isDigit r with
          | some (ds, r2) =>
              if dollarEnd r2 then some ('0' :: ws ++ ds) else none
          | none => none
      | none => none
  | _ => none

/-- `ror_regexp.match`: the two optional prefixes give six combinations,
tried in the engine's preference order (not pairwise exclusive, so each
failing combination falls through to the next): group 1. -/
def rorMatch (v : Str) : Option Str :=
  let combos := ["https://ror.org/", "https://", "http://ror.org/", "http://",
                 "ror.org/", ""]
  combos.findSome? (fun p =>
    if ciStarts v p then rorBody (v.drop (str p).length) else none)

/-! ### ARK suffix: `ark:/[0-9bcdfghjkmnpqrstvwxz]+/.+$` (case-sensitive) -/

/-- The ARK NAAN alphabet `[0-9bcdfghjkmnpqrstvwxz]`. -/
def isArkNaanChar (c : Char) : Bool :=
  c.isDigit ∨ (str "bcdfghjkmnpqrstvwxz").contains c

/-- `ark_suffix_regexp.match` (deterministic: the NAAN class excludes `/`). -/
def ark_suffix_match (v : Str) : Bool :=
  startsWith v (str "ark:/") &&
  (let t := v.drop 5
   let run := t.takeWhile isArkNaanChar
   !run.isEmpty &&
   match t.dropWhile isArkNaanChar with
   | '/' :: t3 => (dotPlusDollar t3).isSome
   | _ => false)

/-! ### LSID: `urn:lsid:[^:]+(:[^:]+){2,3}$`, `re.I` -/

/-- `lsid_regexp.match`: after the literal, the colon-separated parts must
number three or four and be non-empty (`[^:]` includes the newline, so the
trailing `$` is absorbed by the greedy class). -/
def lsid_regexp_match (v : Str) : Bool :=
  ciStarts v "urn:lsid:" ∧
  (let parts := pySplit ':' (v.drop 9)
   (parts.length = 3 ∨ parts.length = 4) ∧ parts.all (· ≠ []))

/-! ### ADS: `(ads:|ADS:)?(\d{4}[A-Za-z]\S{13}[A-Za-z.:])$` (case-sensitive) -/

/-- The ADS bibcode body (group 2). -/
def adsBody (t : Str) : Option Str :=
  match takeExact 4 Char.isDigit t with
  | some (ds, r) =>
      match r with
      | c :: r2 =>
          if c.isAlpha then
            match takeExact 13 (fun x => ¬isPySpace x) r2 with
            | some (ms, r3) =>
                match r3 with
                | e :: r4 =>
                    if (e.isAlpha ∨ e = '.' ∨ e = ':') ∧ dollarEnd r4 then
                      some (ds ++ c :: ms ++ [e])
                    else none
                | [] => none
            | none => none
          else none
      | [] => none
  | none => none

/-- `ads_regexp.match`: group 2. -/
def adsMatch (v : Str) : Option Str :=
  if startsWith v (str "ads:") ∨ startsWith v (str "ADS:") then
    match adsBody (v.drop 4) with
    | some g => some g
    | none => adsBody v
  else adsBody v

/-! ### PMCID: `PMC\d+$`, `re.I` -/

/-- `pmcid_regexp.match`. -/
def pmcid_match (v : Str) : Bool :=
  ciStarts v "pmc" ∧
  (let t := v.drop 3
   let run := t.takeWhile Char.isDigit
   run ≠ [] ∧ dollarEnd (t.dropWhile Char.isDigit))

/-! ### PMID: `(pmid:|https?://pubmed.ncbi.nlm.nih.gov/)?(\d+)/?$`, `re.I`
(the dots of the host literal are unescaped, so they match any character) -/

/-- The PMID body `(\d+)/?$`: group 2. -/
def pmidBody (t : Str) : Option Str :=
  let run := t.takeWhile Char.isDigit
  if run = [] then none
  else
    let rest := t.dropWhile Char.isDigit
    if dollarEnd rest ∨ (rest ≠ [] ∧ rest.head? = some '/' ∧ dollarEnd (rest.drop 1)) then
      some run
    else none

/-- `pmid_regexp.match`: group 2. -/
def pmidMatch (v : Str) : Option Str :=
  if ciStarts v "pmid:" then
    match pmidBody (v.drop 5) with
    | some g => some g
    | none => pmidBody v
  else
    match (["https://", "http://"].findSome? (fun sc =>
        if ciStarts v sc then ciLitWithDots (str "pubmed.ncbi.nlm.nih.gov/") (v.drop (str sc).length)
        else none)) with
    | some rest =>
        match pmidBody rest with
        | some g => some g
        | none => pmidBody v
    | none => pmidBody v

/-! ### ASCL: `^ascl:[0-9]{4}\.[0-9]{3,4}$`, `re.I` -/

/-- `ascl_regexp.match`. -/
def ascl_match (v : Str) : Bool :=
  ciStarts v "ascl:" &&
  (match takeExact 4 Char.isDigit (v.drop 5) with
   | some (_, r) =>
       match r with
       | '.' :: r2 =>
           let m := (r2.takeWhile Char.isDigit).length
           (m == 3 || m == 4) && dollarEnd (r2.dropWhile Char.isDigit)
       | _ => false
   | none => false)

/-! ### HAL: `(hal:|HAL:)?([a-z]{3}[a-z]*-|(sic|mem|ijn)_)\d{8}(v\d+)?$` (case-sensitive) -/

/-- Lower-case ASCII letter. -/
def isLowerAlpha (c : Char) : Bool := 'a' ≤ c ∧ c ≤ 'z'

/-- An optional version suffix `(v\d+)?` followed by `$` (the version `v` is
case-sensitive here; `vchars` lists the accepted initial letters). -/
def versionDollar (vchars : List Char) (t : Str) : Bool :=
  match t with
  | c :: rest =>
      if c ∈ vchars then
        let run := rest.takeWhile Char.isDigit
        if run ≠ [] ∧ dollarEnd (rest.dropWhile Char.isDigit) then true
        else dollarEnd t
      else dollarEnd t
  | [] => true

/-- The HAL body. -/
def halBody (t : Str) : Bool :=
  let afterHead : Option Str :=
    let run := t.takeWhile isLowerAlpha
    if 3 ≤ run.length ∧ (t.dropWhile isLowerAlpha).head? = some '-' then
      some ((t.dropWhile isLowerAlpha).drop 1)
    else if startsWith t (str "sic_") ∨ startsWith t (str "mem_") ∨ startsWith t (str "ijn_") then
      some (t.drop 4)
    else none
  match afterHead with
  | some r =>
      match takeExact 8 Char.isDigit r with
      | some (_, r2) => versionDollar ['v'] r2
      | none => false
  | none => false

/-- `hal_regexp.match`. -/
def hal_match (v : Str) : Bool :=
  if startsWith v (str "hal:") ∨ startsWith v (str "HAL:") then
    halBody (v.drop 4) ∨ halBody v
  else halBody v

/-! ### arXiv patterns (`re.I`) -/

/-- Post-2007 body `(\d{4})\.(\d{4,5})(v\d+)?$`: groups 2–4. The `\d{4,5}`
run is deterministic (a shorter take leaves a digit where `v`/`$` is
required). `re.I` makes the version letter match `v` or `V`. -/
def arxivPostBody (t : Str) : Option (Str × Str × Option Str) :=
  match takeExact 4 Char.isDigit t with
  | some (g2, r) =>
      match r with
      | '.' :: r2 =>
          let run := r2.takeWhile Char.isDigit
          let m := run.length
          if m = 4 ∨ m = 5 then
            let rest := r2.dropWhile Char.isDigit
            match rest with
            | c :: r3 =>
                if c = 'v' ∨ c = 'V' then
                  let vrun := r3.takeWhile Char.isDigit
                  if vrun ≠ [] ∧ dollarEnd (r3.dropWhile Char.isDigit) then
                    some (g2, run, some (c :: vrun))
                  else if dollarEnd rest then some (g2, run, none) else none
                else if dollarEnd rest then some (g2, run, none) else none
            | [] => some (g2, run, none)
          else none
      | _ => none
  | none => none

/-- `arxiv_post_2007_regexp.match`: groups 2–4. -/
def arxivPost2007Match (v : Str) : Option (Str × Str × Option Str) :=
  if ciStarts v "arxiv:" then
    match arxivPostBody (v.drop 6) with
    | some g => some g
    | none => arxivPostBody v
  else arxivPostBody v

/-- `[a-z\-]+` under `re.I`: ASCII letters and hyphen. -/
def isArxivArchiveChar (c : Char) : Bool := c.isAlpha ∨ c = '-'

/-- Groups of `arxiv_pre_2007_regexp`:
`(arxiv:)?([a-z\-]+)(\.[a-z]{2})?(/\d{4})(\d+)(v\d+)?$`. -/
structure ArxivPre where
  g1 : Option Str
  g2 : Str
  g3 : Option Str
  g4 : Str
  g5 : Str
  g6 : Option Str
  deriving Repr, DecidableEq

/-- After the archive letters: `(/\d{4})(\d+)(v\d+)?$` (the digit run after
`/` must have length at least five). -/
def arxivPreTail (g1 : Option Str) (g2 : Str) (g3 : Option Str) (t : Str) :
    Option ArxivPre :=
  match t with
  | '/' :: r =>
      let run := r.takeWhile Char.isDigit
      if 5 ≤ run.length then
        let rest := r.dropWhile Char.isDigit
        let g4 := '/' :: run.take 4
        let g5 := run.drop 4
        match rest with
        | c :: r3 =>
            if c = 'v' ∨ c = 'V' then
              let vrun := r3.takeWhile Char.isDigit
              if vrun ≠ [] ∧ dollarEnd (r3.dropWhile Char.isDigit) then
                some ⟨g1, g2, g3, g4, g5, some (c :: vrun)⟩
              else if dollarEnd rest then some ⟨g1, g2, g3, g4, g5, none⟩ else none
            else if dollarEnd rest then some ⟨g1, g2, g3, g4, g5, none⟩ else none
        | [] => some ⟨g1, g2, g3, g4, g5, none⟩
      else none
  | _ => none

/-- The pre-2007 body `([a-z\-]+)(\.[a-z]{2})?(/\d{4})(\d+)(v\d+)?$`
(deterministic archive run; the optional subclass group is tried
present-first with fallback). -/
def arxivPreBody (g1 : Option Str) (t : Str) : Option ArxivPre :=
  let g2 := t.takeWhile isArxivArchiveChar
  if g2 = [] then none
  else
    let t1 := t.dropWhile isArxivArchiveChar
    let withClass :=
      match t1 with
      | '.' :: a :: b :: rest =>
          if a.isAlpha ∧ b.isAlpha then
            arxivPreTail g1 g2 (some ['.', a, b]) rest
          else none
      | _ => none
    match withClass with
    | some g => some g
    | none => arxivPreTail g1 g2 none t1

/-- `arxiv_pre_2007_regexp.match`. Group 1 keeps the original casing of the
`arxiv:` prefix, as `normalize_arxiv` re-joins the matched text. -/
def arxivPre2007Match (v : Str) : Option ArxivPre :=
  if ciStarts v "arxiv:" then
    match arxivPreBody (some (v.take 6)) (v.drop 6) with
    | some g => some g
    | none => arxivPreBody none v
  else arxivPreBody none v

/-- Body of `arxiv_post_2007_with_class_regexp`:
`(?:[a-z\-]+)(?:\.[a-z]{2})?/(\d{4})\.(\d{4,5})(v\d+)?$` (groups 2–4 of the
full pattern). -/
def arxivWithClassBody (t : Str) : Option (Str × Str × Option Str) :=
  let arch := t.takeWhile isArxivArchiveChar
  if arch = [] then none
  else
    let t1 := t.dropWhile isArxivArchiveChar
    let afterClass :=
      match t1 with
      | '.' :: a :: b :: rest =>
          if a.isAlpha ∧ b.isAlpha then
            match rest with
            | '/' :: r2 => arxivPostBody r2
            | _ => none
          else none
      | _ => none
    match afterClass with
    | some g => some g
    | none =>
        match t1 with
        | '/' :: r2 => arxivPostBody r2
        | _ => none

/-- `arxiv_post_2007_with_class_regexp.match`: groups 2–4. -/
def arxivWithClassMatch (v : Str) : Option (Str × Str × Option Str) :=
  if ciStarts v "arxiv:" then
    match arxivWithClassBody (v.drop 6) with
    | some g => some g
    | none => arxivWithClassBody v
  else arxivWithClassBody v

/-- `validators.is_arxiv_post_2007` — `post.match or with_class.match`;
the groups 2–4 of whichever matched first. -/
def is_arxiv_post_2007_match (v : Str) : Option (Str × Str × Option Str) :=
  match arxivPost2007Match v with
  | some g => some g
  | none => arxivWithClassMatch v

/-- `validators.is_arxiv_post_2007` as a predicate. -/
def is_arxiv_post_2007 (v : Str) : Bool := (is_arxiv_post_2007_match v).isSome

/-- `validators.is_arxiv_pre_2007` as a predicate. -/
def is_arxiv_pre_2007 (v : Str) : Bool := (arxivPre2007Match v).isSome

/-- `validators.is_arxiv`. -/
def is_arxiv (v : Str) : Bool := is_arxiv_post_2007 v || is_arxiv_pre_2007 v

/-! ### Bioinformatics accession patterns (all case-sensitive) -/

/-- A non-empty digit run then `$`: the common `\d+$` tail. -/
def digitsDollar (t : Str) : Bool :=
  !(t.takeWhile Char.isDigit).isEmpty && dollarEnd (t.dropWhile Char.isDigit)

/-- A non-empty digit run, an optional `\.\d+`, then `$`: the common
`\d+(\.\d+)?$` tail (deterministic: the runs cannot contain `.`). -/
def digitsOptDotDigitsDollar (t : Str) : Bool :=
  let run := t.takeWhile Char.isDigit
  if run = [] then false
  else
    match t.dropWhile Char.isDigit with
    | '.' :: r2 => digitsDollar r2 || dollarEnd ('.' :: r2)
    | rest => dollarEnd rest

/-- `sra_regexp.match`: `[SED]R[APRSXZ]\d+$`. -/
def sra_match (v : Str) : Bool :=
  match v with
  | c0 :: 'R' :: c2 :: rest =>
      (c0 = 'S' ∨ c0 = 'E' ∨ c0 = 'D') ∧
      (c2 = 'A' ∨ c2 = 'P' ∨ c2 = 'R' ∨ c2 = 'S' ∨ c2 = 'X' ∨ c2 = 'Z') ∧
      digitsDollar rest
  | _ => false

/-- `bioproject_regexp.match`: `PRJ(NA|EA|EB|DB)\d+$`. -/
def bioproject_match (v : Str) : Bool :=
  startsWith v (str "PRJ") ∧
  (let t := v.drop 3
   ["NA", "EA", "EB", "DB"].any (fun p =>
     startsWith t (str p) ∧ digitsDollar (t.drop 2)))

/-- `biosample_regexp.match`: `SAM(N|EA|D)\d+$`. -/
def biosample_match (v : Str) : Bool :=
  startsWith v (str "SAM") ∧
  (let t := v.drop 3
   (startsWith t (str "N") ∧ digitsDollar (t.drop 1)) ∨
   (startsWith t (str "EA") ∧ digitsDollar (t.drop 2)) ∨
   (startsWith t (str "D") ∧ digitsDollar (t.drop 1)))

/-- `idutils.utils.ENSEMBL_PREFIXES` (in source order). -/
def ENSEMBL_PREFIXES : List Str :=
  ["ENSPMA", "ENSNGA", "ENSOPR", "ENSMNE", "MGP_C57BL6NJ_", "MGP_LPJ_", "FB",
   "ENSORL", "ENSONI", "ENSOCU", "ENSXET", "ENSRRO", "ENSCAT", "ENSAME",
   "MGP_CASTEiJ_", "ENSCSAV", "ENSMAU", "ENSFAL", "ENSTRU", "ENSPTR",
   "ENSTTR", "ENSCJA", "ENSSAR", "ENSVPA", "ENSLAC", "ENSPVA", "ENSPAN",
   "ENSHGLF", "MGP_PWKPhJ_", "MGP_NZOHlLtJ_", "ENSCAF", "MGP_AJ_", "ENSMOD",
   "ENSMGA", "ENSPCO", "ENSFDA", "ENSBTA", "ENSGAL", "ENSLAF", "ENSGGO",
   "ENSCAP", "ENSMMU", "ENSAPL", "ENSCEL", "ENSMEU", "ENSCGR", "ENSANA",
   "ENSGMO", "ENSPEM", "MGP_C3HHeJ_", "ENSTGU", "ENSSCE", "ENSOGA", "ENSACA",
   "ENSTSY", "ENSTBE", "MGP_AKRJ_", "ENSDAR", "ENSMUS", "ENSETE", "ENSSBO",
   "ENS", "ENSCGR", "ENSFCA", "MGP_BALBcJ_", "MGP_PahariEiJ_", "ENSCSA",
   "ENSCCA", "ENSOAR", "ENSCHI", "ENSDOR", "ENSCHO", "ENSSHA", "ENSMPU",
   "ENSNLE", "ENSXMA", "ENSSSC", "ENSEEU", "ENSPSI", "MGP_DBA2J_", "ENSAMX",
   "MGP_WSBEiJ_", "ENSJJA", "ENSCIN", "ENSPPA", "MGP_SPRETEiJ_", "ENSCAN",
   "MGP_NODShiLtJ_", "ENSCLA", "ENSCPO", "ENSDNO", "ENSPFO", "ENSMIC",
   "MGP_FVBNJ_", "MGP_CBAJ_", "ENSSTO", "ENSRNO", "ENSMOC", "ENSTNI",
   "ENSPPY", "ENSGAC", "ENSLOC", "ENSODE", "ENSPCA", "ENSECA", "ENSOAN",
   "MGP_CAROLIEiJ_", "ENSHGLM", "MGP_129S1SvImJ_", "ENSRBI", "ENSMLU",
   "ENSMLE", "ENSMFA"].map str

/-- `ensembl_regexp.match`: `({prefixes})(E|FM|G|GT|P|R|T)\d{11}$`. Only
acceptance is observed, so the engine's preference order among the
alternatives is irrelevant: existence over prefix and feature letter. -/
def ensembl_match (v : Str) : Bool :=
  ENSEMBL_PREFIXES.any (fun p =>
    startsWith v p ∧
    (let t := v.drop p.length
     ["E", "FM", "G", "GT", "P", "R", "T"].any (fun l =>
       startsWith t (str l) &&
       (match takeExact 11 Char.isDigit (t.drop (str l).length) with
        | some (_, r) => dollarEnd r
        | none => false))))

/-- Upper-case ASCII letter. -/
def isUpperAlpha (c : Char) : Bool := 'A' ≤ c ∧ c ≤ 'Z'

/-- Upper-case ASCII letter or digit. -/
def isUpperAlphaNum (c : Char) : Bool := isUpperAlpha c ∨ c.isDigit

/-- `uniprot_regexp.match`:
`([A-NR-Z][0-9]([A-Z][A-Z0-9]{2}[0-9]){1,2})|([OPQ][0-9][A-Z0-9]{3}[0-9])(\.\d+)?$`.
By the pattern's precedence the `$` (and the optional `(\.\d+)?`) belong
only to the second alternative: the first alternative is a bare prefix
match. -/
def uniprot_match (v : Str) : Bool :=
  let block := fun (t : Str) =>
    match t with
    | a :: b :: c :: d :: rest =>
        if isUpperAlpha a ∧ isUpperAlphaNum b ∧ isUpperAlphaNum c ∧ d.isDigit then
          some rest
        else none
    | _ => none
  let alt1 : Bool :=
    match v with
    | c0 :: c1 :: rest =>
        (decide (('A' ≤ c0 ∧ c0 ≤ 'N') ∨ ('R' ≤ c0 ∧ c0 ≤ 'Z'))) && c1.isDigit &&
        (block rest).isSome
    | _ => false
  let alt2 : Bool :=
    match v with
    | c0 :: c1 :: a :: b :: c :: d :: rest =>
        (decide (c0 = 'O' ∨ c0 = 'P' ∨ c0 = 'Q')) && c1.isDigit &&
        isUpperAlphaNum a && isUpperAlphaNum b && isUpperAlphaNum c && d.isDigit &&
        (match rest with
         | '.' :: r2 => digitsDollar r2 || dollarEnd ('.' :: r2)
         | r => dollarEnd r)
    | _ => false
  alt1 || alt2

/-- `refseq_regexp.match`:
`((AC|NC|NG|NT|NW|NM|NR|XM|XR|AP|NP|YP|XP|WP)_|NZ_[A-Z]{4})\d+(\.\d+)?$`. -/
def refseq_match (v : Str) : Bool :=
  (["AC", "NC", "NG", "NT", "NW", "NM", "NR", "XM", "XR", "AP", "NP", "YP",
    "XP", "WP"].any (fun p =>
      startsWith v (str (p ++ "_")) && digitsOptDotDigitsDollar (v.drop 3))) ||
  (startsWith v (str "NZ_") &&
   (match takeExact 4 isUpperAlpha (v.drop 3) with
    | some (_, r) => digitsOptDotDigitsDollar r
    | none => false))

/-- `genome_regexp.match`: `GC[AF]_\d+\.\d+$`. -/
def genome_match (v : Str) : Bool :=
  match v with
  | 'G' :: 'C' :: c :: '_' :: rest =>
      (decide (c = 'A' ∨ c = 'F')) &&
      (let run := rest.takeWhile Char.isDigit
       !run.isEmpty &&
       match rest.dropWhile Char.isDigit with
       | '.' :: r2 => digitsDollar r2
       | _ => false)
  | _ => false

/-- `geo_regexp.match`: `G(PL|SM|SE|DS)\d+$`. -/
def geo_match (v : Str) : Bool :=
  match v with
  | 'G' :: a :: b :: rest =>
      ((a = 'P' ∧ b = 'L') ∨ (a = 'S' ∧ b = 'M') ∨ (a = 'S' ∧ b = 'E') ∨
       (a = 'D' ∧ b = 'S')) ∧ digitsDollar rest
  | _ => false

/-- `idutils.utils.ARRAYEXPRESS_CODES`. -/
def ARRAYEXPRESS_CODES : List Str :=
  ["AFFY", "AFMX", "AGIL", "ATMX", "BAIR", "BASE", "BIOD", "BUGS", "CAGE",
   "CBIL", "DKFZ", "DORD", "EMBL", "ERAD", "FLYC", "FPMI", "GEAD", "GEHB",
   "GEOD", "GEUV", "HGMP", "IPKG", "JCVI", "JJRD", "LGCL", "MANP", "MARS",
   "MAXD", "MEXP", "MIMR", "MNIA", "MTAB", "MUGN", "NASC", "NCMF", "NGEN",
   "RUBN", "RZPD", "SGRP", "SMDB", "SNGR", "SYBR", "TABM", "TIGR", "TOXM",
   "UCON", "UHNC", "UMCU", "WMIT"].map str

/-- `arrayexpress_array_regexp.match`: `A-({codes})-\d+$`. -/
def arrayexpress_array_match (v : Str) : Bool :=
  startsWith v (str "A-") &&
  ARRAYEXPRESS_CODES.any (fun c =>
    startsWith (v.drop 2) c &&
    (match v.drop 6 with
     | '-' :: rest => digitsDollar rest
     | _ => false))

/-- `arrayexpress_experiment_regexp.match`: `E-({codes})-\d+$`. -/
def arrayexpress_experiment_match (v : Str) : Bool :=
  startsWith v (str "E-") &&
  ARRAYEXPRESS_CODES.any (fun c =>
    startsWith (v.drop 2) c &&
    (match v.drop 6 with
     | '-' :: rest => digitsDollar rest
     | _ => false))

/-! ### Email and SHA-1 -/

/-- `email_regexp.match`: `\S+@(\S+\.)+\S+` is unanchored at the end; since
`\S` includes `.` and `@`, the tail `(\S+\.)+\S+` matches a prefix of the
remainder exactly when some index `d ≥ 1` has a `.` at `d` with `d + 2`
leading non-space characters; the head `\S+@` matches when some `@` is
preceded by a non-empty run of non-space characters from the start. -/
def email_match (v : Str) : Bool :=
  (List.range v.length).any (fun i =>
    1 ≤ i ∧ v.getD i ' ' = '@' ∧ (v.take i).all (fun c => ¬isPySpace c) ∧
    (let rest := v.drop (i + 1)
     (List.range rest.length).any (fun d =>
       1 ≤ d ∧ rest.getD d ' ' = '.' ∧ d + 2 ≤ rest.length ∧
       (rest.take (d + 2)).all (fun c => ¬isPySpace c))))

/-- `sha1_regexp.match`: `^[a-fA-F0-9]{40}$`. -/
def sha1_match (v : Str) : Bool :=
  match takeExact 40 (fun c => (hexVal c).isSome) v with
  | some (_, r) => dollarEnd r
  | none => false

/-! ### RFC 3987 (`idutils.utils._create_rfc3987_reg_exps`)

The IRI grammar is translated structurally. All its character classes
exclude the delimiters used for splitting (`/` in paths, `@`/`:` in the
authority, `?`/`#` between components), so each split below is the
deterministic counterpart of the corresponding greedy regex. Percent
escapes (`%hh`) are the only multi-character tokens; `scanPct` consumes
them during class scans. -/

/-- `ucschar`. -/
def isUcsChar (c : Char) : Bool :=
  let n := c.toNat
  (0xa0 ≤ n ∧ n ≤ 0xd7ff) ∨ (0xf900 ≤ n ∧ n ≤ 0xfdcf) ∨
  (0xfdf0 ≤ n ∧ n ≤ 0xffef) ∨ (0x10000 ≤ n ∧ n ≤ 0x1fffd) ∨
  (0x20000 ≤ n ∧ n ≤ 0x2fffd) ∨ (0x30000 ≤ n ∧ n ≤ 0x3fffd) ∨
  (0x40000 ≤ n ∧ n ≤ 0x4fffd) ∨ (0x50000 ≤ n ∧ n ≤ 0x5fffd) ∨
  (0x60000 ≤ n ∧ n ≤ 0x6fffd) ∨ (0x70000 ≤ n ∧ n ≤ 0x7fffd) ∨
  (0x80000 ≤ n ∧ n ≤ 0x8fffd) ∨ (0x90000 ≤ n ∧ n ≤ 0x9fffd) ∨
  (0xa0000 ≤ n ∧ n ≤ 0xafffd) ∨ (0xb0000 ≤ n ∧ n ≤ 0xbfffd) ∨
  (0xc0000 ≤ n ∧ n ≤ 0xcfffd) ∨ (0xd0000 ≤ n ∧ n ≤ 0xdfffd) ∨
  (0xe1000 ≤ n ∧ n ≤ 0xefffd)

/-- `iprivate`. -/
def isIPrivate (c : Char) : Bool :=
  let n := c.toNat
  (0xe000 ≤ n ∧ n ≤ 0xf8ff) ∨ (0xf0000 ≤ n ∧ n ≤ 0xffffd) ∨
  (0x100000 ≤ n ∧ n ≤ 0x10fffd)

/-- `unreserved` (ASCII). -/
def isUnreserved (c : Char) : Bool :=
  c.isAlpha ∨ c.isDigit ∨ c = '-' ∨ c = '.' ∨ c = '_' ∨ c = '~'

/-- `iunreserved`. -/
def isIUnreserved (c : Char) : Bool := isUnreserved c ∨ isUcsChar c

/-- `sub_delims`: `!$&'()*+,;=`. -/
def isSubDelim (c : Char) : Bool :=
  c = '!' ∨ c = '$' ∨ c = '&' ∨ c = Char.ofNat 39 ∨ c = '(' ∨ c = ')' ∨
  c = '*' ∨ c = '+' ∨ c = ',' ∨ c = ';' ∨ c = '='

/-- A class-with-percent-escapes scan: `(<class>|pct_encoded)*` as a full
match of `s`. -/
def scanPct (ok : Char → Bool) : Str → Bool
  | [] => true
  | '%' :: a :: b :: rest => (hexVal a).isSome && (hexVal b).isSome && scanPct ok rest
  | '%' :: _ => false
  | c :: rest => ok c && scanPct ok rest

/-- `isegment = (ipchar)*` as a full match (`ipchar` is
`iunreserved | pct_encoded | sub_delims | [:@]`). -/
def isegmentValid (s : Str) : Bool :=
  scanPct (fun c => isIUnreserved c ∨ isSubDelim c ∨ c = ':' ∨ c = '@') s

/-- `validators.is_rfc3987_ipath_absolute`:
`ipath_absolute = /(isegment_nz(/isegment)*)?` as a full match. -/
def is_rfc3987_ipath_absolute (s : Str) : Bool :=
  match s with
  | '/' :: rest =>
      if rest = [] then true
      else
        match pySplit '/' rest with
        | [] => false
        | p0 :: ps => !p0.isEmpty && isegmentValid p0 && ps.all isegmentValid
  | _ => false

/-- `h16 = [0-9A-Fa-f]{1,4}` as a full match. -/
def h16Valid (s : Str) : Bool :=
  1 ≤ s.length ∧ s.length ≤ 4 ∧ s.all (fun c => (hexVal c).isSome)

/-- `dec_octet` as a full match: `0`–`255` without leading zeros (the
regex alternatives `[0-9]`, `[1-9][0-9]`, `1\d\d`, `2[0-4]\d`, `25[0-5]`). -/
def decOctetValid (s : Str) : Bool :=
  match s with
  | [a] => a.isDigit
  | [a, b] => ('1' ≤ a ∧ a ≤ '9') ∧ b.isDigit
  | [a, b, c] =>
      (a = '1' ∧ b.isDigit ∧ c.isDigit) ∨
      (a = '2' ∧ ('0' ≤ b ∧ b ≤ '4') ∧ c.isDigit) ∨
      (a = '2' ∧ b = '5' ∧ ('0' ≤ c ∧ c ≤ '5'))
  | _ => false

/-- `ipv4address` as a full match. -/
def ipv4Valid (s : Str) : Bool :=
  match pySplit '.' s with
  | [a, b, c, d] => decOctetValid a && decOctetValid b && decOctetValid c && decOctetValid d
  | _ => false

/-- Splits `s` at the first occurrence of `::`, if any. -/
def splitDoubleColon (s : Str) : Option (Str × Str) :=
  match s with
  | ':' :: ':' :: rest => some ([], rest)
  | c :: rest =>
      match splitDoubleColon rest with
      | some (a, b) => some (c :: a, b)
      | none => none
  | [] => none

/-- `ipv6address` as a full match. The nine regex alternatives are
equivalent to: the colon-separated groups are `h16`s, the final group may
instead be an `ipv4address` (worth two groups), and either there is no `::`
and exactly eight groups, or there is one `::` and at most seven groups in
total on its two sides (each side having no empty group). -/
def ipv6Valid (s : Str) : Bool :=
  let side := fun (t : Str) (allowV4Last : Bool) =>
    if t = [] then some 0
    else
      let parts := pySplit ':' t
      if parts.any (·.isEmpty) then none
      else
        match parts.reverse with
        | [] => some 0
        | last :: front =>
            if front.all h16Valid then
              if h16Valid last then some parts.length
              else if allowV4Last ∧ ipv4Valid last then some (parts.length + 1)
              else none
            else none
  match splitDoubleColon s with
  | none =>
      match side s true with
      | some n => n = 8
      | none => false
  | some (l, r) =>
      match side l false, side r true with
      | some nl, some nr => nl + nr ≤ 7 ∧ (splitDoubleColon r).isNone
      | _, _ => false

/-- `ipvfuture` as a full match. -/
def ipvFutureValid (s : Str) : Bool :=
  match s with
  | c :: rest =>
      (c = 'v' ∨ c = 'V') &&
      (let hex := rest.takeWhile (fun x => (hexVal x).isSome)
       !hex.isEmpty &&
       match rest.dropWhile (fun x => (hexVal x).isSome) with
       | '.' :: tail => !tail.isEmpty && tail.all (fun x => isUnreserved x ∨ isSubDelim x ∨ x = ':')
       | _ => false)
  | [] => false

/-- `ireg_name = (iunreserved|pct_encoded|sub_delims)*` as a full match. -/
def iregNameValid (s : Str) : Bool :=
  scanPct (fun c => isIUnreserved c ∨ isSubDelim c) s

/-- `ihost(:port)?` as a full match: `ip_literal`, `ipv4address` or
`ireg_name`, then an optional `:` and a (possibly empty) digit port. The
host classes exclude `:` (and the bracketed form ends at `]`), so the split
at the port separator is deterministic. -/
def hostPortValid (h : Str) : Bool :=
  match h with
  | '[' :: rest =>
      if ']' ∈ rest then
        let inner := rest.takeWhile (· ≠ ']')
        let after := (rest.dropWhile (· ≠ ']')).drop 1
        (ipv6Valid inner || ipvFutureValid inner) &&
        (match after with
         | [] => true
         | ':' :: port => port.all Char.isDigit
         | _ => false)
      else false
  | _ =>
      if ':' ∈ h then
        let host := h.takeWhile (· ≠ ':')
        let port := (h.dropWhile (· ≠ ':')).drop 1
        (ipv4Valid host || iregNameValid host) && port.all Char.isDigit
      else ipv4Valid h || iregNameValid h

/-- `iuserinfo = (iunreserved|pct_encoded|sub_delims|:)*` as a full match. -/
def iuserinfoValid (s : Str) : Bool :=
  scanPct (fun c => isIUnreserved c ∨ isSubDelim c ∨ c = ':') s

/-- `iauthority = (iuserinfo@)?ihost(:port)?` as a full match. Neither the
userinfo class nor the host/port can contain `@`, so only the last `@` (if
any) can separate the userinfo. -/
def iauthorityValid (a : Str) : Bool :=
  if '@' ∈ a then
    match rfindIdx '@' a with
    | some i => iuserinfoValid (a.take i) && hostPortValid (a.drop (i + 1))
    | none => false
  else hostPortValid a

/-- `ipath_abempty = (/isegment)*` as a full match. -/
def ipathAbemptyValid (p : Str) : Bool :=
  match p with
  | [] => true
  | '/' :: rest => (pySplit '/' rest).all isegmentValid
  | _ => false

/-- `ihier_part` as a full match (`//iauthority ipath_abempty`,
`ipath_absolute`, `ipath_rootless` or `ipath_empty`). -/
def ihierPartValid (h : Str) : Bool :=
  match h with
  | '/' :: '/' :: rest =>
      let netpart := rest.takeWhile (· ≠ '/')
      let path := rest.dropWhile (· ≠ '/')
      iauthorityValid netpart && ipathAbemptyValid path
  | '/' :: _ => is_rfc3987_ipath_absolute h
  | [] => true
  | _ =>
      match pySplit '/' h with
      | [] => false
      | p0 :: ps => !p0.isEmpty && isegmentValid p0 && ps.all isegmentValid

/-- `iquery = (ipchar|iprivate|[/?])*` as a full match. -/
def iqueryValid (q : Str) : Bool :=
  scanPct (fun c => isIUnreserved c ∨ isSubDelim c ∨ c = ':' ∨ c = '@' ∨
                    isIPrivate c ∨ c = '/' ∨ c = '?') q

/-- `ifragment = (ipchar|[/?])*` as a full match. -/
def ifragmentValid (f : Str) : Bool :=
  scanPct (fun c => isIUnreserved c ∨ isSubDelim c ∨ c = ':' ∨ c = '@' ∨
                    c = '/' ∨ c = '?') f

/-- `validators.is_rfc3987_iri`:
`iri = scheme:ihier_part(\?iquery)?(\#ifragment)?` as a full match. No
class before the fragment contains `#`, and none before the query contains
`?`, so those components split deterministically at the first occurrence;
the scheme run cannot contain `:` and must be followed by one. -/
def is_rfc3987_iri (s : Str) : Bool :=
  let (beforeFrag, fragPart) := if '#' ∈ s then
      (s.takeWhile (· ≠ '#'), some ((s.dropWhile (· ≠ '#')).drop 1))
    else (s, none)
  let (beforeQuery, queryPart) := if '?' ∈ beforeFrag then
      (beforeFrag.takeWhile (· ≠ '?'), some ((beforeFrag.dropWhile (· ≠ '?')).drop 1))
    else (beforeFrag, none)
  (match fragPart with | some f => ifragmentValid f | none => true) &&
  (match queryPart with | some q => iqueryValid q | none => true) &&
  (match beforeQuery with
   | c :: _ =>
       c.isAlpha &&
       (let run := beforeQuery.takeWhile isSchemeChar
        match beforeQuery.drop run.length with
        | ':' :: hier => ihierPartValid hier
        | _ => false)
   | [] => false)

/-! ### Software Heritage identifiers -/

/-- The core `swh:1:(snp|rel|rev|dir|cnt):[0-9a-f]{40}` of
`swh_before_qualifiers_regexp` (also used by the `visit=`/`anchor=`
qualifier values): returns the remainder after the 40 hex digits. -/
def swhCoreMatch (v : Str) : Option Str :=
  if startsWith v (str "swh:1:") then
    let t := v.drop 6
    if ["snp", "rel", "rev", "dir", "cnt"].any (fun o => startsWith t (str o)) then
      match t.drop 3 with
      | ':' :: rest =>
          match takeExact 40 (fun c => c.isDigit ∨ ('a' ≤ c ∧ c ≤ 'f')) rest with
          | some (_, r) => some r
          | none => none
      | _ => none
    else none
  else none

/-- `swh_before_qualifiers_regexp.match`: `none` for no match,
`some none` for a match without qualifiers, `some (some q)` for a match
whose `qualifiers` group is `q` (the `;.+` part, tried present-first). -/
def swh_before_qualifiers_match (v : Str) : Option (Option Str) :=
  match swhCoreMatch v with
  | none => none
  | some rest =>
      match rest with
      | ';' :: body =>
          (match dotPlusDollar body with
           | some core => some (some (';' :: core))
           | none => none)
      | _ => if dollarEnd rest then some none else none

/-- The named groups of `swh_qualifier_values_regexp` that `is_swh`
reads from `groupdict()`. -/
structure SwhQual where
  origin_value : Option Str
  path_value : Option Str
  deriving Repr, DecidableEq

/-- `swh_qualifier_values_regexp.match` on one qualifier: the five
alternatives in pattern order (their literals are pairwise exclusive). -/
def swhQualifierMatch (q : Str) : Option SwhQual :=
  if startsWith q (str "origin=") then
    let p := q.drop 7
    if !p.isEmpty && ';' ∉ p then some ⟨some p, none⟩ else none
  else if startsWith q (str "visit=") then
    match swhCoreMatch (q.drop 6) with
    | some rest => if dollarEnd rest then some ⟨none, none⟩ else none
    | none => none
  else if startsWith q (str "anchor=") then
    match swhCoreMatch (q.drop 7) with
    | some rest => if dollarEnd rest then some ⟨none, none⟩ else none
    | none => none
  else if startsWith q (str "path=") then
    let p := q.drop 5
    if !p.isEmpty && ';' ∉ p then some ⟨none, some p⟩ else none
  else if startsWith q (str "lines=") then
    let t := q.drop 6
    let run := t.takeWhile Char.isDigit
    if run.isEmpty then none
    else
      match t.dropWhile Char.isDigit with
      | '-' :: r2 => if digitsDollar r2 then some ⟨none, none⟩ else none
      | rest => if dollarEnd rest then some ⟨none, none⟩ else none
  else none

/-- `validators.is_swh`. -/
def is_swh (v : Str) : Bool :=
  match swh_before_qualifiers_match v with
  | none => false
  | some none => true
  | some (some qualifiers) =>
      let qs := pySplit ';' (qualifiers.drop 1)
      qs.all (fun q =>
        match swhQualifierMatch q with
        | none => false
        | some qd =>
            (match qd.origin_value with
             | some ov => is_rfc3987_iri ov
             | none => true) &&
            (match qd.path_value with
             | some pv => is_rfc3987_ipath_absolute pv
             | none => true))

/-! ## Validators (`idutils/validators.py`) -/

/-- Modelled from the spec: `unicodedata.normalize("NFKD", ·)` from the
external `unicodedata` collaborator. NFKD normalization is the identity on
the ASCII strings this development evaluates, and that identity is what is
modelled. -/
def unicodedata_nfkd (s : Str) : Str := s

/-- `validators.is_doi`. -/
def is_doi (v : Str) : Bool := (doiMatch v).isSome

/-- `validators.is_swh` is defined above; `validators.is_handle` combines
the handle pattern with its negation. -/
def is_handle (v : Str) : Bool := (handleMatch v).isSome && !is_swh v

/-- `validators.is_ads` (NFKD-normalizes, then matches). -/
def is_ads (v : Str) : Bool := (adsMatch (unicodedata_nfkd v)).isSome

/-- `validators.is_hal`. -/
def is_hal (v : Str) : Bool := hal_match v

/-- `validators.is_pmid`. -/
def is_pmid (v : Str) : Bool := (pmidMatch v).isSome

/-- `validators.is_pmcid`. -/
def is_pmcid (v : Str) : Bool := pmcid_match v

/-- `validators.is_gnd`. -/
def is_gnd (v : Str) : Bool := (gndMatch v).isSome

/-- `validators.is_sra`. -/
def is_sra (v : Str) : Bool := sra_match v

/-- `validators.is_bioproject`. -/
def is_bioproject (v : Str) : Bool := bioproject_match v

/-- `validators.is_biosample`. -/
def is_biosample (v : Str) : Bool := biosample_match v

/-- `validators.is_ensembl`. -/
def is_ensembl (v : Str) : Bool := ensembl_match v

/-- `validators.is_uniprot`. -/
def is_uniprot (v : Str) : Bool := uniprot_match v

/-- `validators.is_refseq`. -/
def is_refseq (v : Str) : Bool := refseq_match v

/-- `validators.is_genome`. -/
def is_genome (v : Str) : Bool := genome_match v

/-- `validators.is_geo`. -/
def is_geo (v : Str) : Bool := geo_match v

/-- `validators.is_arrayexpress_array`. -/
def is_arrayexpress_array (v : Str) : Bool := arrayexpress_array_match v

/-- `validators.is_arrayexpress_experiment`. -/
def is_arrayexpress_experiment (v : Str) : Bool := arrayexpress_experiment_match v

/-- `validators.is_ascl`. -/
def is_ascl (v : Str) : Bool := ascl_match v

/-- `validators.is_ror`. -/
def is_ror (v : Str) : Bool := (rorMatch v).isSome

/-- `validators.is_email`. -/
def is_email (v : Str) : Bool := email_match v

/-- `validators.is_sha1`. -/
def is_sha1 (v : Str) : Bool := sha1_match v

/-- `validators.is_ark`: `urlparse` runs before either disjunct, so its
`ValueError` propagates (`Except`). -/
def is_ark (v : Str) : Except Unit Bool :=
  match urlparse v with
  | .error e => .error e
  | .ok res =>
      .ok (ark_suffix_match v ||
        (res.scheme = str "http" && res.netloc ≠ [] &&
         ark_suffix_match (res.path.drop 1) && res.params = []))

/-- The netlocs accepted by `validators.is_purl`. -/
def purl_netlocs : List Str :=
  ["purl.org", "purl.oclc.org", "purl.net", "purl.com", "purl.fdlp.gov"].map str

/-- `validators.is_purl`. -/
def is_purl (v : Str) : Except Unit Bool :=
  match urlparse v with
  | .error e => .error e
  | .ok res =>
      .ok ((res.scheme = str "http" ∨ res.scheme = str "https") &&
        res.netloc ∈ purl_netlocs && res.path ≠ [])

/-- `validators.is_url` (`bool(res.scheme and res.netloc)`). -/
def is_url (v : Str) : Except Unit Bool :=
  match urlparse v with
  | .error e => .error e
  | .ok res => .ok (res.scheme ≠ [] && res.netloc ≠ [])

/-- `validators.is_urn`. -/
def is_urn (v : Str) : Except Unit Bool :=
  match urlparse v with
  | .error e => .error e
  | .ok res => .ok (res.scheme = str "urn" && res.netloc = [] && res.path ≠ [])

/-- `validators.is_lsid` (`is_urn(val) and lsid_regexp.match(val)`; the
short-circuiting `and` cannot skip the `urlparse` inside `is_urn`). -/
def is_lsid (v : Str) : Except Unit Bool :=
  match is_urn v with
  | .error e => .error e
  | .ok u => .ok (u && lsid_regexp_match v)

/-! ## Detector (`idutils/detectors.py`) -/

/-- Lifts an exception-free validator into the detector's common shape. -/
def pureV (f : Str → Bool) : Str → Except Unit Bool := fun v => .ok (f v)

/-- `detectors.IDUTILS_PID_SCHEMES`: the ordered battery of built-in
`(scheme, validator)` pairs the detector runs. -/
def IDUTILS_PID_SCHEMES : List (String × (Str → Except Unit Bool)) :=
  [("doi", pureV is_doi),
   ("ark", is_ark),
   ("handle", pureV is_handle),
   ("purl", is_purl),
   ("lsid", is_lsid),
   ("urn", is_urn),
   ("ads", pureV is_ads),
   ("arxiv", pureV is_arxiv),
   ("ascl", pureV is_ascl),
   ("hal", pureV is_hal),
   ("pmcid", pureV is_pmcid),
   ("isbn", pureV is_isbn),
   ("issn", pureV is_issn),
   ("orcid", pureV is_orcid),
   ("isni", pureV is_isni),
   ("ean13", pureV is_ean13),
   ("ean8", pureV is_ean8),
   ("istc", pureV is_istc),
   ("gnd", pureV is_gnd),
   ("ror", pureV is_ror),
   ("pmid", pureV is_pmid),
   ("url", is_url),
   ("sra", pureV is_sra),
   ("bioproject", pureV is_bioproject),
   ("biosample", pureV is_biosample),
   ("ensembl", pureV is_ensembl),
   ("uniprot", pureV is_uniprot),
   ("refseq", pureV is_refseq),
   ("genome", pureV is_genome),
   ("geo", pureV is_geo),
   ("arrayexpress_array", pureV is_arrayexpress_array),
   ("arrayexpress_experiment", pureV is_arrayexpress_experiment),
   ("swh", pureV is_swh),
   ("viaf", pureV is_viaf)]

/-- `detectors.IDUTILS_SCHEME_FILTER`:
`(present_scheme, [schemes to remove if present_scheme found])`. -/
def IDUTILS_SCHEME_FILTER : List (String × List String) :=
  [("url", ["isbn", "istc", "urn", "lsid", "issn", "ean8", "viaf"]),
   ("ean8", ["gnd", "pmid", "viaf"]),
   ("ean13", ["gnd", "pmid"]),
   ("isbn", ["gnd", "pmid"]),
   ("orcid", ["gnd", "pmid"]),
   ("isni", ["gnd", "pmid"]),
   ("issn", ["gnd", "viaf"]),
   ("pmid", ["viaf"])]

/-- The collection loop of `detect_identifier_schemes`: every validator is
run in order and the matching scheme names are appended; a raising
validator aborts the whole detection. -/
def collectSchemes (vals : List (String × (Str → Except Unit Bool))) (v : Str) :
    Except Unit (List String) :=
  match vals with
  | [] => .ok []
  | (n, t) :: rest =>
      match t v with
      | .error e => .error e
      | .ok b =>
          match collectSchemes rest v with
          | .error e => .error e
          | .ok l => .ok (if b then n :: l else l)

/-- The GND/ISBN clash special case of `detect_identifier_schemes`
(`schemes.remove("isbn")` removes the first occurrence). -/
def applyGndIsbnCase (v : Str) (schemes : List String) : List String :=
  if "gnd" ∈ schemes ∧ "isbn" ∈ schemes then
    if startsWith (pyLower v) (str "gnd:") then schemes.erase "isbn" else schemes
  else schemes

/-- The VIAF/url special case: the four VIAF host prefixes are pairwise
non-overlapping, so the source's loop removes `"url"` at most once. -/
def applyViafUrlCase (v : Str) (schemes : List String) : List String :=
  if "viaf" ∈ schemes ∧ "url" ∈ schemes then
    if viaf_urls.any (fun u => startsWith v u) then schemes.erase "url" else schemes
  else schemes

/-- The VIAF/handle special case. -/
def applyViafHandleCase (v : Str) (schemes : List String) : List String :=
  if "viaf" ∈ schemes ∧ "handle" ∈ schemes then
    if viaf_urls.any (fun u => startsWith v u) then schemes.erase "handle" else schemes
  else schemes

/-- The filter-table loop: each `(trigger, targets)` rule, in table order,
filters the current candidate list when its trigger is present. -/
def applyFilters (filters : List (String × List String)) (schemes : List String) :
    List String :=
  filters.foldl
    (fun s rule => if rule.1 ∈ s then s.filter (fun x => x ∉ rule.2) else s)
    schemes

/-- The final handle-narrowing `if`/`elif` of `detect_identifier_schemes`. -/
def applyHandleNarrowing (v : Str) (schemes : List String) : List String :=
  if "handle" ∈ schemes ∧ "url" ∈ schemes ∧
     ¬startsWith v (str "http://hdl.handle.net/") ∧
     ¬startsWith v (str "https://hdl.handle.net/") then
    schemes.filter (fun x => x ≠ "handle")
  else if "handle" ∈ schemes ∧ ("ark" ∈ schemes ∨ "arxiv" ∈ schemes) then
    schemes.filter (fun x => x ≠ "handle")
  else schemes

/-- `detectors.detect_identifier_schemes`. The two parameters model the
custom-scheme registry (`current_idutils.pick_scheme_key("validator")` and
`pick_scheme_key("filter")`, modelled from the spec since
`idutils/proxies.py` is not among the sources): the custom validators are
appended after the built-in battery and the custom filter rules after the
built-in table, in registration order. -/
def detect_identifier_schemes
    (customValidators : List (String × (Str → Except Unit Bool)))
    (customFilters : List (String × List String)) (v : Str) :
    Except Unit (List String) :=
  match collectSchemes (IDUTILS_PID_SCHEMES ++ customValidators) v with
  | .error e => .error e
  | .ok schemes =>
      let schemes := applyGndIsbnCase v schemes
      let schemes := applyViafUrlCase v schemes
      let schemes := applyViafHandleCase v schemes
      let schemes := applyFilters (IDUTILS_SCHEME_FILTER ++ customFilters) schemes
      let schemes := applyHandleNarrowing v schemes
      .ok schemes

/-- Detection with no custom schemes registered (the default deployment). -/
def detectDefault (v : Str) : Except Unit (List String) :=
  detect_identifier_schemes [] [] v

/-! ## Normalizers (`idutils/normalizers.py`) -/

/-- `normalizers.normalize_doi` (`doi_regexp.match(val).group(2)`; a
non-matching value makes CPython raise `AttributeError` on `None.group`,
modelled as `.error ()`). -/
def normalize_doi (v : Str) : Except Unit Str :=
  match doiMatch v with
  | some g => .ok g
  | none => .error ()

/-- `normalizers.normalize_handle`. -/
def normalize_handle (v : Str) : Except Unit Str :=
  match handleMatch v with
  | some g => .ok g
  | none => .error ()

/-- `normalizers.normalize_ads`. -/
def normalize_ads (v : Str) : Except Unit Str :=
  match adsMatch (unicodedata_nfkd v) with
  | some g => .ok g
  | none => .error ()

/-- `normalizers.normalize_orcid`. -/
def normalize_orcid (v : Str) : Str :=
  let val := stripFirstMatching orcid_urls v
  let val := removeChar ' ' (removeChar '-' val)
  val.take 4 ++ '-' :: ((val.drop 4).take 4) ++ '-' :: ((val.drop 8).take 4) ++
    '-' :: ((val.drop 12).take 4)

/-- `normalizers.normalize_gnd`. -/
def normalize_gnd (v : Str) : Except Unit Str :=
  match gndMatch v with
  | some g => .ok (str "gnd:" ++ g)
  | none => .error ()

/-- `idutils.utils.urn_resolver_url`. -/
def urn_resolver_url : Str := str "https://nbn-resolving.org/"

/-- `normalizers.normalize_urn`. -/
def normalize_urn (v : Str) : Str :=
  let v := if startsWith v urn_resolver_url then v.drop urn_resolver_url.length else v
  let v := if startsWith (pyLower v) (str "urn:") then v.drop 4 else v
  str "urn:" ++ v

/-- `normalizers.normalize_pmid`. -/
def normalize_pmid (v : Str) : Except Unit Str :=
  match pmidMatch v with
  | some g => .ok g
  | none => .error ()

/-- `normalizers.normalize_arxiv`. At the point where the pre-2007 groups
are re-joined the value is guaranteed to carry an `arXiv:` prefix (ensured
by the first step), so group 1 is present; a `none` group 1 would be
CPython's `TypeError` in `"".join`, modelled as `.error ()`. -/
def normalize_arxiv (v : Str) : Except Unit Str :=
  let v :=
    if ¬startsWith (pyLower v) (str "arxiv:") then str "arXiv:" ++ v
    else if v.take 6 ≠ str "arXiv:" then str "arXiv:" ++ v.drop 6
    else v
  let step : Except Unit Str :=
    match arxivPre2007Match v with
    | some m =>
        if m.g3.isSome then
          match m.g1 with
          | some g1 =>
              .ok (g1 ++ m.g2 ++ m.g4 ++ m.g5 ++
                (match m.g6 with | some g6 => g6 | none => []))
          | none => .error ()
        else .ok v
    | none => .ok v
  match step with
  | .error e => .error e
  | .ok v =>
      match is_arxiv_post_2007_match v with
      | some (g2, g3, g4) =>
          .ok (str "arXiv:" ++ g2 ++ '.' :: g3 ++ (match g4 with | some g => g | none => []))
      | none => .ok v

/-- `normalizers.normalize_hal`
(`val.replace(" ", "").lower().replace("hal:", "")`). -/
def normalize_hal (v : Str) : Str :=
  removeSubstr (str "hal:") (pyLower (removeChar ' ' v))

/-- `normalizers.normalize_isbn` (via the modelled `isbnlib` collaborator:
converts ISBN-10 to ISBN-13, then `mask(canonical(val))`). -/
def normalize_isbn (v : Str) : Str :=
  let v := if is_isbn10 v then isbnlib_to_isbn13 v else v
  isbnlib_mask (isbnlib_canonical v)

/-- `normalizers.normalize_issn`. -/
def normalize_issn (v : Str) : Str :=
  let val := pyUpper (pyStrip (removeChar '-' (removeChar ' ' v)))
  val.take 4 ++ '-' :: (val.drop 4)

/-- `normalizers.normalize_ror`. -/
def normalize_ror (v : Str) : Except Unit Str :=
  match rorMatch v with
  | some g => .ok g
  | none => .error ()

/-- `normalizers.normalize_viaf`. -/
def normalize_viaf (v : Str) : Str :=
  let v := stripFirstMatching viaf_urls v
  let v := if startsWith (pyLower v) (str "viaf:") then v.drop 5 else v
  str "viaf:" ++ v

/-- `normalizers.normalize_pid`. The parameter models the custom-scheme
registry's `pick_scheme_key("normalizer")` (modelled from the spec, see
the module comment); a falsy value is returned unchanged. -/
def normalize_pid (customNormalizers : List (String × (Str → Str)))
    (v : Str) (scheme : String) : Except Unit Str :=
  if v = [] then .ok v
  else if scheme = "doi" then normalize_doi v
  else if scheme = "handle" then normalize_handle v
  else if scheme = "ads" then normalize_ads v
  else if scheme = "pmid" then normalize_pmid v
  else if scheme = "arxiv" then normalize_arxiv v
  else if scheme = "orcid" then .ok (normalize_orcid v)
  else if scheme = "gnd" then normalize_gnd v
  else if scheme = "isbn" then .ok (normalize_isbn v)
  else if scheme = "issn" then .ok (normalize_issn v)
  else if scheme = "hal" then .ok (normalize_hal v)
  else if scheme = "ror" then normalize_ror v
  else if scheme = "urn" then .ok (normalize_urn v)
  else if scheme = "viaf" then .ok (normalize_viaf v)
  else
    match customNormalizers.find? (fun p => p.1 = scheme) with
    | some p => .ok (p.2 v)
    | none => .ok v

/-- Normalization with no custom schemes registered. -/
def normalizeDefault (v : Str) (scheme : String) : Except Unit Str :=
  normalize_pid [] v scheme

/-! ## URL resolver (`idutils/normalizers.py`: `IDUTILS_LANDING_URLS`, `to_url`) -/

/-- One entry of `IDUTILS_LANDING_URLS`: every template in the table has
the form `"{scheme}" ++ mid ++ "{pid}" ++ suffix`. -/
structure LandingTemplate where
  mid : Str
  suffix : Str
  deriving Repr, DecidableEq

/-- `normalizers.IDUTILS_LANDING_URLS`. -/
def IDUTILS_LANDING_URLS : List (String × LandingTemplate) :=
  [("doi", ⟨str "://doi.org/", []⟩),
   ("handle", ⟨str "://hdl.handle.net/", []⟩),
   ("arxiv", ⟨str "://arxiv.org/abs/", []⟩),
   ("ascl", ⟨str "://ascl.net/", []⟩),
   ("orcid", ⟨str "://orcid.org/", []⟩),
   ("pmid", ⟨str "://pubmed.ncbi.nlm.nih.gov/", str "/"⟩),
   ("pmcid", ⟨str "://pmc.ncbi.nlm.nih.gov/articles/", str "/"⟩),
   ("ads", ⟨str "://ui.adsabs.harvard.edu/#abs/", []⟩),
   ("gnd", ⟨str "://d-nb.info/gnd/", []⟩),
   ("urn", ⟨str "://nbn-resolving.org/", []⟩),
   ("sra", ⟨str "://www.ebi.ac.uk/ena/data/view/", []⟩),
   ("bioproject", ⟨str "://www.ebi.ac.uk/ena/data/view/", []⟩),
   ("biosample", ⟨str "://www.ebi.ac.uk/ena/data/view/", []⟩),
   ("ensembl", ⟨str "://www.ensembl.org/id/", []⟩),
   ("uniprot", ⟨str "://purl.uniprot.org/uniprot/", []⟩),
   ("refseq", ⟨str "://www.ncbi.nlm.nih.gov/entrez/viewer.fcgi?val=", []⟩),
   ("genome", ⟨str "://www.ncbi.nlm.nih.gov/assembly/", []⟩),
   ("geo", ⟨str "://www.ncbi.nlm.nih.gov/geo/query/acc.cgi?acc=", []⟩),
   ("arrayexpress_array", ⟨str "://www.ebi.ac.uk/arrayexpress/arrays/", []⟩),
   ("arrayexpress_experiment", ⟨str "://www.ebi.ac.uk/arrayexpress/experiments/", []⟩),
   ("hal", ⟨str "://hal.archives-ouvertes.fr/", []⟩),
   ("swh", ⟨str "://archive.softwareheritage.org/", []⟩),
   ("ror", ⟨str "://ror.org/", []⟩),
   ("viaf", ⟨str "://viaf.org/viaf/", []⟩)]

/-- `normalizers.to_url`. The first two parameters model the custom-scheme
registry's normalizers and URL generators (modelled from the spec); the
Python default `url_scheme="http"` is passed explicitly by callers here.
`scheme == "ascl"` re-splits the original value and CPython raises
`IndexError` when it has no `:` (modelled as `.error ()`). -/
def to_url (customNormalizers : List (String × (Str → Str)))
    (customUrlGenerators : List (String × (Str → Str → Str)))
    (v : Str) (scheme : String) (url_scheme : Str) : Except Unit Str :=
  match normalize_pid customNormalizers v scheme with
  | .error e => .error e
  | .ok pid =>
      match IDUTILS_LANDING_URLS.find? (fun p => p.1 = scheme) with
      | some tpl =>
          let pid := if scheme = "gnd" ∧ startsWith pid (str "gnd:") then pid.drop 4 else pid
          if scheme = "urn" ∧ ¬startsWith (pyLower pid) (str "urn:nbn:") then
            .ok []
          else
            let pidStep : Except Unit Str :=
              if scheme = "ascl" then
                match (pySplit ':' v).drop 1 with
                | p :: _ => .ok p
                | [] => .error ()
              else .ok pid
            match pidStep with
            | .error e => .error e
            | .ok pid =>
                let (pid, url_scheme) :=
                  if scheme = "viaf" ∧ startsWith pid (str "viaf:") then
                    (pid.drop 5, str "https")
                  else (pid, url_scheme)
                .ok (url_scheme ++ tpl.2.mid ++ pid ++ tpl.2.suffix)
      | none =>
          if scheme = "purl" ∨ scheme = "url" then .ok pid
          else
            match customUrlGenerators.find? (fun p => p.1 = scheme) with
            | some gen => .ok (gen.2 url_scheme pid)
            | none => .ok []

/-- URL resolution with no custom schemes registered. -/
def toUrlDefault (v : Str) (scheme : String) (url_scheme : Str) : Except Unit Str :=
  to_url [] [] v scheme url_scheme

/-! ## Custom-scheme registry (`idutils/ext.py` and `idutils/schemes.py`) -/

/-- `idutils/schemes.py`'s `IDUTILS_PID_SCHEMES` (the list `ext.py` imports
for its collision check): the detector battery plus `email` and `sha1`. -/
def schemes_IDUTILS_PID_SCHEMES : List (String × (Str → Except Unit Bool)) :=
  IDUTILS_PID_SCHEMES ++ [("email", pureV is_email), ("sha1", pureV is_sha1)]

/-- `ext._load_entry_points`'s `existing_id_names`:
`set(scheme[0] for scheme in IDUTILS_PID_SCHEMES)` over the
`schemes.py` list. -/
def existing_id_names : List String :=
  schemes_IDUTILS_PID_SCHEMES.map (fun p => p.1)

/-- A custom-scheme configuration as supplied by a plugin factory: each key
is optional (`ext.py` docstring). The `assert callable(...)` and the
unknown-key assertion of `_set_default_custom_scheme_config` are enforced
by this type. -/
structure SchemeConfigInput where
  validator : Option (Str → Bool)
  normalizer : Option (Str → Str)
  filter : Option (List String)
  url_generator : Option (Str → Str → Option Str)

/-- A fully defaulted configuration, as stored in the registry. -/
structure SchemeConfig where
  validator : Str → Bool
  normalizer : Str → Str
  filter : List String
  url_generator : Str → Str → Option Str

/-- `ext._set_default_custom_scheme_config`: merge the supplied keys over
the defaults (always-true validator, identity normalizer, empty filter,
always-`None` URL generator). -/
def _set_default_custom_scheme_config (c : SchemeConfigInput) : SchemeConfig :=
  ⟨c.validator.getD (fun _ => true), c.normalizer.getD id,
   c.filter.getD [], c.url_generator.getD (fun _ _ => none)⟩

/-- The loop of `CustomSchemesRegistry._load_entry_points` over the
discovered entry points (`(name, loaded config)` pairs, in discovery
order): a name colliding with a built-in name raises
`AssertionError("Scheme {name} already exists!")`, modelled as
`.error`; otherwise the defaulted config is stored with `setdefault`
(first registration of a name wins). -/
def _load_entry_points : List (String × SchemeConfigInput) →
    List (String × SchemeConfig) → Except String (List (String × SchemeConfig))
  | [], reg => .ok reg
  | (name, cfg) :: rest, reg =>
      if name ∈ existing_id_names then
        .error ("Scheme " ++ name ++ " already exists!")
      else
        let reg :=
          if reg.any (fun p => p.1 = name) then reg
          else reg ++ [(name, _set_default_custom_scheme_config cfg)]
        _load_entry_points rest reg

/-- Construction of the `CustomSchemesRegistry` singleton: load all entry
points into an initially empty registry. -/
def CustomSchemesRegistry_new (eps : List (String × SchemeConfigInput)) :
    Except String (List (String × SchemeConfig)) :=
  _load_entry_points eps []

/-- The all-defaults configuration input (a factory returning `{}`). -/
def emptySchemeConfigInput : SchemeConfigInput := ⟨none, none, none, none⟩

/-- The scheme names of the detector battery, in declared order. -/
def builtinSchemeNames : List String := IDUTILS_PID_SCHEMES.map (fun p => p.1)

/-! # Theorems

The claims are settled below. Helper lemmas come first; each claim's
theorem carries a doc comment naming it. -/

theorem mem_of_mem_takeWhile {p : Char → Bool} {l : Str} {a : Char}
    (h : a ∈ l.takeWhile p) : a ∈ l :=
  (List.takeWhile_sublist p).subset h

theorem mem_of_mem_dropWhile {p : Char → Bool} {l : Str} {a : Char}
    (h : a ∈ l.dropWhile p) : a ∈ l :=
  (List.dropWhile_sublist p).subset h

theorem collectSchemes_ok_sublist {vals : List (String × (Str → Except Unit Bool))}
    {v : Str} {l : List String} (h : collectSchemes vals v = .ok l) :
    l.Sublist (vals.map (fun p => p.1)) := by
  induction vals generalizing l with
  | nil =>
      simp only [collectSchemes] at h
      cases h
      simp
  | cons p rest ih =>
      obtain ⟨n, t⟩ := p
      simp only [collectSchemes] at h
      cases ht : t v with
      | error e => rw [ht] at h; exact absurd h (by simp)
      | ok b =>
          rw [ht] at h
          cases hc : collectSchemes rest v with
          | error e => rw [hc] at h; exact absurd h (by simp)
          | ok l2 =>
              rw [hc] at h
              have hl : l = if b then n :: l2 else l2 := by
                cases h
                rfl
              have hsub := ih hc
              subst hl
              cases b with
              | true => simpa using hsub.cons₂ n
              | false => simpa using hsub.cons n

theorem mem_collectSchemes_ok {vals : List (String × (Str → Except Unit Bool))}
    {v : Str} {l : List String} {n : String} {t : Str → Except Unit Bool}
    (h : collectSchemes vals v = .ok l) (hmem : (n, t) ∈ vals)
    (ht : t v = .ok true) : n ∈ l := by
  induction vals generalizing l with
  | nil => simp at hmem
  | cons p rest ih =>
      obtain ⟨n', t'⟩ := p
      simp only [collectSchemes] at h
      cases ht' : t' v with
      | error e => rw [ht'] at h; exact absurd h (by simp)
      | ok b =>
          rw [ht'] at h
          cases hc : collectSchemes rest v with
          | error e => rw [hc] at h; exact absurd h (by simp)
          | ok l2 =>
              rw [hc] at h
              have hl : l = if b then n' :: l2 else l2 := by cases h; rfl
              subst hl
              rcases List.mem_cons.mp hmem with heq | hmem2
              · injection heq with hn htEq
                subst hn
                subst htEq
                rw [ht] at ht'
                injection ht' with hb
                rw [← hb]
                simp
              · have hn2 := ih hc hmem2
                cases b with
                | true => simpa using List.mem_cons_of_mem n' hn2
                | false => simpa using hn2

theorem exists_of_mem_collectSchemes {vals : List (String × (Str → Except Unit Bool))}
    {v : Str} {l : List String} {n : String}
    (h : collectSchemes vals v = .ok l) (hn : n ∈ l) :
    ∃ t, (n, t) ∈ vals ∧ t v = .ok true := by
  induction vals generalizing l with
  | nil =>
      simp only [collectSchemes] at h
      cases h
      simp at hn
  | cons p rest ih =>
      obtain ⟨n', t'⟩ := p
      simp only [collectSchemes] at h
      cases ht' : t' v with
      | error e => rw [ht'] at h; exact absurd h (by simp)
      | ok b =>
          rw [ht'] at h
          cases hc : collectSchemes rest v with
          | error e => rw [hc] at h; exact absurd h (by simp)
          | ok l2 =>
              rw [hc] at h
              have hl : l = if b then n' :: l2 else l2 := by cases h; rfl
              subst hl
              cases b with
              | true =>
                  simp only [if_true] at hn
                  rcases List.mem_cons.mp hn with heq | hn2
                  · subst heq
                    exact ⟨t', List.mem_cons_self _ _, ht'⟩
                  · obtain ⟨t, hm, htv⟩ := ih hc hn2
                    exact ⟨t, List.mem_cons_of_mem _ hm, htv⟩
              | false =>
                  simp only [Bool.false_eq_true, if_false] at hn
                  obtain ⟨t, hm, htv⟩ := ih hc hn
                  exact ⟨t, List.mem_cons_of_mem _ hm, htv⟩

theorem applyGndIsbnCase_sublist (v : Str) (s : List String) :
    (applyGndIsbnCase v s).Sublist s := by
  unfold applyGndIsbnCase
  split
  · split
    · exact List.erase_sublist _ _
    · exact List.Sublist.refl s
  · exact List.Sublist.refl s

theorem mem_applyGndIsbnCase {v : Str} {s : List String} {n : String}
    (hn : n ∈ s) (hne : n ≠ "isbn") : n ∈ applyGndIsbnCase v s := by
  unfold applyGndIsbnCase
  split
  · split
    · exact (List.mem_erase_of_ne hne).mpr hn
    · exact hn
  · exact hn

theorem applyGndIsbnCase_eq_erase {v : Str} {s : List String}
    (h1 : "gnd" ∈ s) (h2 : "isbn" ∈ s)
    (h3 : startsWith (pyLower v) (str "gnd:") = true) :
    applyGndIsbnCase v s = s.erase "isbn" := by
  unfold applyGndIsbnCase
  rw [if_pos ⟨h1, h2⟩, if_pos h3]

theorem applyViafUrlCase_sublist (v : Str) (s : List String) :
    (applyViafUrlCase v s).Sublist s := by
  unfold applyViafUrlCase
  split
  · split
    · exact List.erase_sublist _ _
    · exact List.Sublist.refl s
  · exact List.Sublist.refl s

theorem mem_applyViafUrlCase {v : Str} {s : List String} {n : String}
    (hn : n ∈ s) (hne : n ≠ "url") : n ∈ applyViafUrlCase v s := by
  unfold applyViafUrlCase
  split
  · split
    · exact (List.mem_erase_of_ne hne).mpr hn
    · exact hn
  · exact hn

theorem applyViafUrlCase_of_no_viaf_host {v : Str} {s : List String}
    (h : viaf_urls.any (fun u => startsWith v u) = false) :
    applyViafUrlCase v s = s := by
  unfold applyViafUrlCase
  split
  · rw [h]
    simp
  · rfl

theorem applyViafHandleCase_sublist (v : Str) (s : List String) :
    (applyViafHandleCase v s).Sublist s := by
  unfold applyViafHandleCase
  split
  · split
    · exact List.erase_sublist _ _
    · exact List.Sublist.refl s
  · exact List.Sublist.refl s

theorem mem_applyViafHandleCase {v : Str} {s : List String} {n : String}
    (hn : n ∈ s) (hne : n ≠ "handle") : n ∈ applyViafHandleCase v s := by
  unfold applyViafHandleCase
  split
  · split
    · exact (List.mem_erase_of_ne hne).mpr hn
    · exact hn
  · exact hn

theorem applyFilters_nil (s : List String) : applyFilters [] s = s := rfl

theorem applyFilters_cons (r : String × List String) (rs : List (String × List String))
    (s : List String) :
    applyFilters (r :: rs) s =
      applyFilters rs (if r.1 ∈ s then s.filter (fun x => x ∉ r.2) else s) := rfl

theorem filterStep_sublist (r : String × List String) (s : List String) :
    (if r.1 ∈ s then s.filter (fun x => x ∉ r.2) else s).Sublist s := by
  split
  · exact List.filter_sublist s
  · exact List.Sublist.refl s

theorem applyFilters_sublist (rs : List (String × List String)) (s : List String) :
    (applyFilters rs s).Sublist s := by
  induction rs generalizing s with
  | nil => exact List.Sublist.refl s
  | cons r rest ih =>
      rw [applyFilters_cons]
      exact (ih _).trans (filterStep_sublist r s)

theorem mem_filterStep {r : String × List String} {s : List String} {n : String}
    (hn : n ∈ s) (hne : n ∉ r.2) :
    n ∈ (if r.1 ∈ s then s.filter (fun x => x ∉ r.2) else s) := by
  split
  · exact List.mem_filter.mpr ⟨hn, by simpa using hne⟩
  · exact hn

theorem filterStep_of_trigger_not_mem {r : String × List String} {s : List String}
    (h : r.1 ∉ s) : (if r.1 ∈ s then s.filter (fun x => x ∉ r.2) else s) = s :=
  if_neg h

theorem applyHandleNarrowing_sublist (v : Str) (s : List String) :
    (applyHandleNarrowing v s).Sublist s := by
  unfold applyHandleNarrowing
  split
  · exact List.filter_sublist s
  · split
    · exact List.filter_sublist s
    · exact List.Sublist.refl s

theorem mem_applyHandleNarrowing {v : Str} {s : List String} {n : String}
    (hn : n ∈ s) (hne : n ≠ "handle") : n ∈ applyHandleNarrowing v s := by
  unfold applyHandleNarrowing
  split
  · exact List.mem_filter.mpr ⟨hn, by simpa using hne⟩
  · split
    · exact List.mem_filter.mpr ⟨hn, by simpa using hne⟩
    · exact hn

theorem detect_ok_postprocess {cv : List (String × (Str → Except Unit Bool))}
    {cf : List (String × List String)} {v : Str} {l : List String}
    (h : detect_identifier_schemes cv cf v = .ok l) :
    ∃ s, collectSchemes (IDUTILS_PID_SCHEMES ++ cv) v = .ok s ∧
      l = applyHandleNarrowing v (applyFilters (IDUTILS_SCHEME_FILTER ++ cf)
            (applyViafHandleCase v (applyViafUrlCase v (applyGndIsbnCase v s)))) := by
  unfold detect_identifier_schemes at h
  cases hc : collectSchemes (IDUTILS_PID_SCHEMES ++ cv) v with
  | error e => rw [hc] at h; exact absurd h (by simp)
  | ok s =>
      rw [hc] at h
      refine ⟨s, rfl, ?_⟩
      cases h
      rfl

theorem asciiLowerChar_cases {c d : Char} (h : asciiLowerChar c = d) :
    c = d ∨ (c, d) ∈ asciiCasePairs := by
  unfold asciiLowerChar at h
  cases hf : asciiCasePairs.find? (fun p => p.1 = c) with
  | none => rw [hf] at h; exact Or.inl h
  | some p =>
      rw [hf] at h
      have h1 := List.find?_some hf
      have h2 := List.mem_of_find?_eq_some hf
      right
      have hp : p = (c, d) := by
        obtain ⟨a, b⟩ := p
        simp only [decide_eq_true_eq] at h1
        simp only at h
        rw [h1, h]
      rwa [hp] at h2

theorem asciiLowerChar_eq_g {c : Char} (h : asciiLowerChar c = 'g') :
    c = 'g' ∨ c = 'G' := by
  rcases asciiLowerChar_cases h with h | h
  · exact Or.inl h
  · right
    simp +decide [asciiCasePairs, Prod.ext_iff] at h
    exact h

theorem asciiLowerChar_eq_colon {c : Char} (h : asciiLowerChar c = ':') :
    c = ':' := by
  rcases asciiLowerChar_cases h with h | h
  · exact h
  · simp +decide [asciiCasePairs, Prod.ext_iff] at h

theorem gnd_prefix_shape {v : Str}
    (h : startsWith (pyLower v) (str "gnd:") = true) :
    ∃ a b c rest, v = a :: b :: c :: ':' :: rest ∧ (a = 'g' ∨ a = 'G') := by
  match v with
  | [] => simp [startsWith, pyLower, str, List.isPrefixOf] at h
  | [a] => simp [startsWith, pyLower, str, List.isPrefixOf] at h
  | [a, b] => simp [startsWith, pyLower, str, List.isPrefixOf] at h
  | [a, b, c] => simp [startsWith, pyLower, str, List.isPrefixOf] at h
  | a :: b :: c :: d :: rest =>
      simp only [startsWith, pyLower, str, List.map, List.isPrefixOf,
        Bool.and_eq_true, beq_iff_eq] at h
      obtain ⟨ha, hb, hc, hd, -⟩ := h
      exact ⟨a, b, c, rest, by rw [asciiLowerChar_eq_colon hd.symm],
        asciiLowerChar_eq_g ha.symm⟩

theorem is_ean8_of_gnd_head {a : Char} {t : Str} (ha : a = 'g' ∨ a = 'G') :
    is_ean8 (a :: t) = false := by
  unfold is_ean8
  split
  · rfl
  · rename_i hlen
    match t with
    | [] => simp at hlen
    | x :: t2 =>
        have hd : digitVal a = none := by rcases ha with h | h <;> subst h <;> rfl
        simp [List.mapM.loop, hd]

theorem is_ean13_of_gnd_head {a : Char} {t : Str} (ha : a = 'g' ∨ a = 'G') :
    is_ean13 (a :: t) = false := by
  unfold is_ean13
  split
  · rfl
  · rename_i hlen
    match t with
    | [] => simp at hlen
    | x :: t2 =>
        have hd : digitVal a = none := by rcases ha with h | h <;> subst h <;> rfl
        simp [List.mapM.loop, hd]

theorem gnd_head_filters {a : Char} {t : Str} (ha : a = 'g' ∨ a = 'G') :
    pyUpper (removeChar ' ' (removeChar '-' (a :: t))) =
      'G' :: pyUpper (removeChar ' ' (removeChar '-' t)) := by
  rcases ha with h | h <;> subst h <;>
    simp +decide [removeChar, pyUpper, List.filter_cons]

theorem is_issn_of_gnd_head {a : Char} {t : Str} (ha : a = 'g' ∨ a = 'G') :
    is_issn (a :: t) = false := by
  simp only [is_issn]
  rw [gnd_head_filters ha]
  split
  · rfl
  · simp [List.mapM.loop, show _convert_x_to_10 'G' = none from rfl]

theorem is_isni_of_gnd_head {a : Char} {t : Str} (ha : a = 'g' ∨ a = 'G') :
    is_isni (a :: t) = false := by
  simp only [is_isni]
  rw [gnd_head_filters ha]
  generalize pyUpper (removeChar ' ' (removeChar '-' t)) = w
  split
  · rfl
  · rename_i hlen
    match w with
    | [] => simp at hlen
    | x :: w2 => simp [List.mapM.loop, show digitVal 'G' = none from rfl]

theorem is_orcid_of_gnd_head {a : Char} {t : Str} (ha : a = 'g' ∨ a = 'G') :
    is_orcid (a :: t) = false := by
  have hstrip : stripFirstMatching orcid_urls (a :: t) = a :: t := by
    rcases ha with h | h <;> subst h <;>
      simp +decide [stripFirstMatching, orcid_urls, startsWith, str, List.isPrefixOf]
  simp only [is_orcid]
  rw [hstrip]
  have hfa : removeChar ' ' (removeChar '-' (a :: t)) =
      a :: removeChar ' ' (removeChar '-' t) := by
    rcases ha with h | h <;> subst h <;> simp +decide [removeChar, List.filter_cons]
  rw [hfa, is_isni_of_gnd_head ha]
  simp

theorem mem_applyFilters {rs : List (String × List String)} {s : List String} {n : String}
    (hn : n ∈ s) (h : ∀ r ∈ rs, n ∉ r.2 ∨ r.1 ∉ s) : n ∈ applyFilters rs s := by
  induction rs generalizing s with
  | nil => exact hn
  | cons r rest ih =>
      rw [applyFilters_cons]
      rcases h r (List.mem_cons_self _ _) with hnr | hts
      · apply ih (mem_filterStep hn hnr)
        intro r2 hr2
        rcases h r2 (List.mem_cons_of_mem _ hr2) with h1 | h2
        · exact Or.inl h1
        · exact Or.inr (fun hmem => h2 ((filterStep_sublist r s).subset hmem))
      · rw [filterStep_of_trigger_not_mem hts]
        apply ih hn
        intro r2 hr2
        exact h r2 (List.mem_cons_of_mem _ hr2)

/-- C5: for every value on which both the `gnd` and `isbn` validators match
and which starts (case-insensitively) with the literal prefix `gnd:`, the
list returned by `detect_identifier_schemes` contains `"gnd"` and does not
contain `"isbn"`. -/
theorem C5_gnd_prefix_suppresses_isbn {v : Str} {l : List String}
    (hg : is_gnd v = true) (hi : is_isbn v = true)
    (hp : startsWith (pyLower v) (str "gnd:") = true)
    (hd : detectDefault v = .ok l) :
    "gnd" ∈ l ∧ "isbn" ∉ l := by
  obtain ⟨s, hc, hl⟩ := detect_ok_postprocess hd
  have hnodup : s.Nodup := by
    have hnames : (List.map (fun p => p.1)
        (IDUTILS_PID_SCHEMES ++ ([] : List (String × (Str → Except Unit Bool))))).Nodup := by
      simp [IDUTILS_PID_SCHEMES]
    exact List.Nodup.sublist (collectSchemes_ok_sublist hc) hnames
  have hgmem : "gnd" ∈ s :=
    mem_collectSchemes_ok (t := pureV is_gnd) hc (by simp [IDUTILS_PID_SCHEMES])
      (by simp [pureV, hg])
  have himem : "isbn" ∈ s :=
    mem_collectSchemes_ok (t := pureV is_isbn) hc (by simp [IDUTILS_PID_SCHEMES])
      (by simp [pureV, hi])
  have hs1eq : applyGndIsbnCase v s = s.erase "isbn" :=
    applyGndIsbnCase_eq_erase hgmem himem hp
  have hg1 : "gnd" ∈ applyGndIsbnCase v s := by
    rw [hs1eq]
    exact (List.mem_erase_of_ne (by decide)).mpr hgmem
  have hi1 : "isbn" ∉ applyGndIsbnCase v s := by
    rw [hs1eq]
    intro hmem
    exact ((hnodup.mem_erase_iff).mp hmem).1 rfl
  have hg2 : "gnd" ∈ applyViafUrlCase v (applyGndIsbnCase v s) :=
    mem_applyViafUrlCase hg1 (by decide)
  have hi2 : "isbn" ∉ applyViafUrlCase v (applyGndIsbnCase v s) := fun hmem =>
    hi1 ((applyViafUrlCase_sublist v _).subset hmem)
  have hg3 : "gnd" ∈ applyViafHandleCase v (applyViafUrlCase v (applyGndIsbnCase v s)) :=
    mem_applyViafHandleCase hg2 (by decide)
  have hi3 : "isbn" ∉ applyViafHandleCase v (applyViafUrlCase v (applyGndIsbnCase v s)) :=
    fun hmem => hi2 ((applyViafHandleCase_sublist v _).subset hmem)
  have hsub3 : ∀ x, x ∈ applyViafHandleCase v (applyViafUrlCase v (applyGndIsbnCase v s)) →
      x ∈ s := fun x hx =>
    (applyGndIsbnCase_sublist v s).subset
      ((applyViafUrlCase_sublist v _).subset
        ((applyViafHandleCase_sublist v _).subset hx))
  obtain ⟨a, b, c, rest, hv, ha⟩ := gnd_prefix_shape hp
  have notMemOf : ∀ n : String, (∀ t, (n, t) ∈ (IDUTILS_PID_SCHEMES ++
      ([] : List (String × (Str → Except Unit Bool)))) → t v = .ok true → False) →
      n ∉ applyViafHandleCase v (applyViafUrlCase v (applyGndIsbnCase v s)) := by
    intro n hall hmem
    obtain ⟨t, hmt, htv⟩ := exists_of_mem_collectSchemes hc (hsub3 _ hmem)
    exact hall t hmt htv
  have hean8 : "ean8" ∉ applyViafHandleCase v (applyViafUrlCase v (applyGndIsbnCase v s)) := by
    apply notMemOf
    intro t hmt htv
    have ht : t = pureV is_ean8 := by simp [IDUTILS_PID_SCHEMES] at hmt; exact hmt
    rw [ht, hv] at htv
    simp [pureV, is_ean8_of_gnd_head ha] at htv
  have hean13 : "ean13" ∉ applyViafHandleCase v (applyViafUrlCase v (applyGndIsbnCase v s)) := by
    apply notMemOf
    intro t hmt htv
    have ht : t = pureV is_ean13 := by simp [IDUTILS_PID_SCHEMES] at hmt; exact hmt
    rw [ht, hv] at htv
    simp [pureV, is_ean13_of_gnd_head ha] at htv
  have horcid : "orcid" ∉ applyViafHandleCase v (applyViafUrlCase v (applyGndIsbnCase v s)) := by
    apply notMemOf
    intro t hmt htv
    have ht : t = pureV is_orcid := by simp [IDUTILS_PID_SCHEMES] at hmt; exact hmt
    rw [ht, hv] at htv
    simp [pureV, is_orcid_of_gnd_head ha] at htv
  have hisni : "isni" ∉ applyViafHandleCase v (applyViafUrlCase v (applyGndIsbnCase v s)) := by
    apply notMemOf
    intro t hmt htv
    have ht : t = pureV is_isni := by simp [IDUTILS_PID_SCHEMES] at hmt; exact hmt
    rw [ht, hv] at htv
    simp [pureV, is_isni_of_gnd_head ha] at htv
  have hissn : "issn" ∉ applyViafHandleCase v (applyViafUrlCase v (applyGndIsbnCase v s)) := by
    apply notMemOf
    intro t hmt htv
    have ht : t = pureV is_issn := by simp [IDUTILS_PID_SCHEMES] at hmt; exact hmt
    rw [ht, hv] at htv
    simp [pureV, is_issn_of_gnd_head ha] at htv
  have hg4 : "gnd" ∈ applyFilters (IDUTILS_SCHEME_FILTER ++ [])
      (applyViafHandleCase v (applyViafUrlCase v (applyGndIsbnCase v s))) := by
    apply mem_applyFilters hg3
    intro r hr
    simp only [IDUTILS_SCHEME_FILTER, List.append_nil, List.mem_cons,
      List.mem_singleton] at hr
    rcases hr with rfl | rfl | rfl | rfl | rfl | rfl | rfl | rfl | h
    · left; decide
    · right; exact hean8
    · right; exact hean13
    · right; exact hi3
    · right; exact horcid
    · right; exact hisni
    · right; exact hissn
    · left; decide
    · simp at h
  have hi4 : "isbn" ∉ applyFilters (IDUTILS_SCHEME_FILTER ++ [])
      (applyViafHandleCase v (applyViafUrlCase v (applyGndIsbnCase v s))) := fun hmem =>
    hi3 ((applyFilters_sublist _ _).subset hmem)
  rw [hl]
  constructor
  · exact mem_applyHandleNarrowing hg4 (by decide)
  · intro hmem
    exact hi4 ((applyHandleNarrowing_sublist v _).subset hmem)

/-- Witness for C5 at the concrete value `gnd:1000000001` (a GND number
whose digits also form a checksum-valid ISBN-10). -/
theorem C5_gnd_prefix_suppresses_isbn_witness :
    is_gnd (str "gnd:1000000001") = true ∧
    is_isbn (str "gnd:1000000001") = true ∧
    startsWith (pyLower (str "gnd:1000000001")) (str "gnd:") = true ∧
    detectDefault (str "gnd:1000000001") = .ok ["gnd"] ∧
    ("gnd" ∈ ["gnd"] ∧ "isbn" ∉ ["gnd"]) :=
  ⟨rfl, rfl, rfl, rfl,
    @C5_gnd_prefix_suppresses_isbn (str "gnd:1000000001") ["gnd"] rfl rfl rfl rfl⟩

/-- C2 (as stated) is false: `http://viaf.org/viaf/75121530` parses as a
URL (the `url` validator matches), yet the detection result still contains
`viaf` — the VIAF special case removes `url` before the filter table runs,
so the `"url"` filter rule never fires. -/
theorem C2_counterexample :
    is_url (str "http://viaf.org/viaf/75121530") = .ok true ∧
    detectDefault (str "http://viaf.org/viaf/75121530") = .ok ["viaf"] ∧
    "viaf" ∈ ["viaf"] :=
  ⟨rfl, rfl, by decide⟩

/-- C2, amended: for every value on which the `url` validator matches and
which does not start with one of the four VIAF host URL prefixes, the
detection result contains none of `isbn`, `istc`, `urn`, `lsid`, `issn`,
`ean8`, `viaf`. -/
theorem C2_url_suppresses_narrow_schemes {v : Str} {l : List String}
    (hurl : is_url v = .ok true)
    (hviaf : viaf_urls.any (fun u => startsWith v u) = false)
    (hd : detectDefault v = .ok l) :
    ∀ x ∈ (["isbn", "istc", "urn", "lsid", "issn", "ean8", "viaf"] : List String),
      x ∉ l := by
  obtain ⟨s, hc, hl⟩ := detect_ok_postprocess hd
  have hu : "url" ∈ s :=
    mem_collectSchemes_ok (t := is_url) hc (by simp [IDUTILS_PID_SCHEMES]) hurl
  have hu1 : "url" ∈ applyGndIsbnCase v s := mem_applyGndIsbnCase hu (by decide)
  have hu2 : "url" ∈ applyViafUrlCase v (applyGndIsbnCase v s) := by
    rw [applyViafUrlCase_of_no_viaf_host hviaf]
    exact hu1
  have hu3 : "url" ∈ applyViafHandleCase v (applyViafUrlCase v (applyGndIsbnCase v s)) :=
    mem_applyViafHandleCase hu2 (by decide)
  intro x hx
  rw [hl]
  intro hmem
  have hmem4 := (applyHandleNarrowing_sublist v _).subset hmem
  rw [show (IDUTILS_SCHEME_FILTER ++ ([] : List (String × List String))) =
      ("url", ["isbn", "istc", "urn", "lsid", "issn", "ean8", "viaf"]) ::
      [("ean8", ["gnd", "pmid", "viaf"]), ("ean13", ["gnd", "pmid"]),
       ("isbn", ["gnd", "pmid"]), ("orcid", ["gnd", "pmid"]),
       ("isni", ["gnd", "pmid"]), ("issn", ["gnd", "viaf"]),
       ("pmid", ["viaf"])] from rfl, applyFilters_cons] at hmem4
  rw [if_pos hu3] at hmem4
  have hmem5 := (applyFilters_sublist _ _).subset hmem4
  have hflt := (List.mem_filter.mp hmem5).2
  fin_cases hx <;> simp_all

/-- Witness for the amended C2 at `http://example.com/123`. -/
theorem C2_url_suppresses_narrow_schemes_witness :
    is_url (str "http://example.com/123") = .ok true ∧
    viaf_urls.any (fun u => startsWith (str "http://example.com/123") u) = false ∧
    detectDefault (str "http://example.com/123") = .ok ["url"] ∧
    ∀ x ∈ (["isbn", "istc", "urn", "lsid", "issn", "ean8", "viaf"] : List String),
      x ∉ ["url"] :=
  ⟨rfl, rfl, rfl,
    @C2_url_suppresses_narrow_schemes (str "http://example.com/123") ["url"] rfl rfl rfl⟩

/-- C3 (as stated) is false: `hdl: swh:1:cnt:…;path=/foo` detects as
`["handle"]` (the SWH core pattern needs its qualifiers anchored at the
start, so `is_swh` is false on the `hdl:`-prefixed form and does not
exclude `handle`), but its handle-normalization strips the `hdl: ` prefix,
and the normalized value is a Software Heritage identifier, on which
`is_handle` is false — `handle` is no longer detected. -/
theorem C3_counterexample :
    detectDefault
      (str "hdl: swh:1:cnt:94a9ed024d3859793618152ea559a168bbcbb5e2;path=/foo")
      = .ok ["handle"] ∧
    normalizeDefault
      (str "hdl: swh:1:cnt:94a9ed024d3859793618152ea559a168bbcbb5e2;path=/foo")
      "handle"
      = .ok (str "swh:1:cnt:94a9ed024d3859793618152ea559a168bbcbb5e2;path=/foo") ∧
    detectDefault (str "swh:1:cnt:94a9ed024d3859793618152ea559a168bbcbb5e2;path=/foo")
      = .ok ["swh"] ∧
    "handle" ∉ ["swh"] :=
  ⟨rfl, rfl, rfl, by decide⟩

/-- C3, amended: on the specification's concrete round-trip scenarios the
property does hold — for each fixture `(value, scheme)`, detection puts
`scheme` first, and detection still reports `scheme` after normalizing
under it. -/
theorem C3_normalize_keeps_first_scheme_on_fixtures :
    (detectDefault (str "10.1016/j.epsl.2011.11.037") = .ok ["doi", "handle"] ∧
     normalizeDefault (str "10.1016/j.epsl.2011.11.037") "doi"
       = .ok (str "10.1016/j.epsl.2011.11.037") ∧
     "doi" ∈ ["doi", "handle"]) ∧
    (detectDefault (str "0000000218250097") = .ok ["orcid", "isni"] ∧
     normalizeDefault (str "0000000218250097") "orcid"
       = .ok (str "0000-0002-1825-0097") ∧
     detectDefault (str "0000-0002-1825-0097") = .ok ["orcid", "isni"] ∧
     "orcid" ∈ ["orcid", "isni"]) ∧
    (detectDefault (str "4079154-3") = .ok ["gnd"] ∧
     normalizeDefault (str "4079154-3") "gnd" = .ok (str "gnd:4079154-3") ∧
     detectDefault (str "gnd:4079154-3") = .ok ["gnd"] ∧
     "gnd" ∈ ["gnd"]) ∧
    (detectDefault (str "ascl:1908.011") = .ok ["ascl"] ∧
     normalizeDefault (str "ascl:1908.011") "ascl" = .ok (str "ascl:1908.011") ∧
     "ascl" ∈ ["ascl"]) :=
  ⟨⟨rfl, rfl, by decide⟩, ⟨rfl, rfl, rfl, by decide⟩,
   ⟨rfl, rfl, rfl, by decide⟩, ⟨rfl, rfl, by decide⟩⟩

/-- C4: the DOI `10.1016/j.epsl.2011.11.037` detects as exactly
`["doi", "handle"]`, normalizes unchanged under `doi`, and resolves to
`http://doi.org/10.1016/j.epsl.2011.11.037` with the default `http`
URL scheme. -/
theorem C4_doi_example :
    detectDefault (str "10.1016/j.epsl.2011.11.037") = .ok ["doi", "handle"] ∧
    normalizeDefault (str "10.1016/j.epsl.2011.11.037") "doi"
      = .ok (str "10.1016/j.epsl.2011.11.037") ∧
    toUrlDefault (str "10.1016/j.epsl.2011.11.037") "doi" (str "http")
      = .ok (str "http://doi.org/10.1016/j.epsl.2011.11.037") :=
  ⟨rfl, rfl, rfl⟩

/-- Loading entry points fails whenever any discovered entry's name is a
built-in scheme name, for every starting registry state. -/
theorem load_entry_points_collision {name : String} {cfg : SchemeConfigInput} :
    ∀ (eps : List (String × SchemeConfigInput)), (name, cfg) ∈ eps →
      name ∈ existing_id_names →
      ∀ reg, ∃ msg, _load_entry_points eps reg = .error msg := by
  intro eps
  induction eps with
  | nil => intro h; simp at h
  | cons p rest ih =>
      intro hmem hb reg
      obtain ⟨n, c⟩ := p
      by_cases hn : n ∈ existing_id_names
      · refine ⟨"Scheme " ++ n ++ " already exists!", ?_⟩
        simp [_load_entry_points, hn]
      · rcases List.mem_cons.mp hmem with heq | hmem2
        · rw [Prod.mk.injEq] at heq
          exact absurd (heq.1 ▸ hb) hn
        · obtain ⟨msg, hmsg⟩ := ih hmem2 hb
            (if reg.any (fun q => q.1 = n) then reg
             else reg ++ [(n, _set_default_custom_scheme_config c)])
          exact ⟨msg, by simp only [_load_entry_points, if_neg hn]; exact hmsg⟩

/-- C6: constructing the registry with an entry point whose name equals
any built-in scheme name fails with an error — the colliding registration
is never stored. -/
theorem C6_builtin_collision_rejected {eps : List (String × SchemeConfigInput)}
    {name : String} {cfg : SchemeConfigInput}
    (hmem : (name, cfg) ∈ eps) (hb : name ∈ existing_id_names) :
    ∃ msg, CustomSchemesRegistry_new eps = .error msg :=
  load_entry_points_collision eps hmem hb []

/-- Witness for C6: registering a custom scheme named `doi`. -/
theorem C6_builtin_collision_rejected_witness :
    ("doi", emptySchemeConfigInput) ∈ [("doi", emptySchemeConfigInput)] ∧
    "doi" ∈ existing_id_names ∧
    ∃ msg, CustomSchemesRegistry_new [("doi", emptySchemeConfigInput)] = .error msg :=
  ⟨by simp, by decide,
   @C6_builtin_collision_rejected [("doi", emptySchemeConfigInput)] "doi"
     emptySchemeConfigInput (by simp) (by decide)⟩

/-- C7 (as stated) is false: for the empty value, `normalize_pid` returns
the falsy input unchanged, the normalized pid does not start with `viaf:`,
and so the caller's `http` scheme is used. -/
theorem C7_counterexample :
    toUrlDefault (str "") "viaf" (str "http") = .ok (str "http://viaf.org/viaf/") ∧
    startsWith (str "http://viaf.org/viaf/") (str "https://viaf.org/viaf/") = false :=
  ⟨rfl, rfl⟩

/-- C7, amended: for every non-empty value and every caller-supplied URL
scheme, `to_url` under `viaf` returns a URL beginning with
`https://viaf.org/viaf/` — normalization always yields a `viaf:`-prefixed
pid, which forces the `https` scheme. -/
theorem C7_viaf_forces_https {v : Str} (u : Str) (hv : v ≠ []) :
    ∃ r, to_url [] [] v "viaf" u = .ok (str "https://viaf.org/viaf/" ++ r) := by
  obtain ⟨w, hw⟩ : ∃ w, normalize_viaf v = str "viaf:" ++ w := ⟨_, rfl⟩
  have hnorm : normalize_pid [] v "viaf" = .ok (str "viaf:" ++ w) := by
    rw [← hw]
    simp [normalize_pid, hv]
  have hfind : IDUTILS_LANDING_URLS.find? (fun p => p.1 = "viaf")
      = some ("viaf", ⟨str "://viaf.org/viaf/", []⟩) := rfl
  have hpre : startsWith (str "viaf:" ++ w) (str "viaf:") = true := by
    simp only [startsWith]
    exact List.isPrefixOf_iff_prefix.mpr (List.prefix_append _ _)
  refine ⟨w, ?_⟩
  simp only [to_url, hnorm, hfind]
  simp [hpre, List.drop_left' (by rfl : (str "viaf:").length = 5)]
  rfl

/-- Witness for the amended C7 at the value `75121530` with caller scheme
`http`. -/
theorem C7_viaf_forces_https_witness :
    str "75121530" ≠ [] ∧
    ∃ r, to_url [] [] (str "75121530") "viaf" (str "http")
      = .ok (str "https://viaf.org/viaf/" ++ r) :=
  ⟨by decide, @C7_viaf_forces_https (str "75121530") (str "http") (by decide)⟩

/-- C8: every string accepted by `is_swh` is rejected by `is_handle` —
the handle validator explicitly negates `is_swh` after its own pattern
match. -/
theorem C8_swh_never_handle (v : Str) (h : is_swh v = true) :
    is_handle v = false := by
  simp [is_handle, h]

/-- Witness for C8 at a qualified SWHID (which does match the generic
handle pattern: `handleMatch` succeeds on it, and only the `is_swh`
negation rejects it). -/
theorem C8_swh_never_handle_witness :
    is_swh (str "swh:1:cnt:94a9ed024d3859793618152ea559a168bbcbb5e2;path=/bar") = true ∧
    (handleMatch (str "swh:1:cnt:94a9ed024d3859793618152ea559a168bbcbb5e2;path=/bar")).isSome = true ∧
    is_handle (str "swh:1:cnt:94a9ed024d3859793618152ea559a168bbcbb5e2;path=/bar") = false :=
  ⟨rfl, rfl, C8_swh_never_handle _ rfl⟩

/-- C10: every string starting with one of the four VIAF host URL prefixes
is accepted by `is_viaf`, whatever follows the prefix. -/
theorem C10_viaf_host_url_accepted (p rest : Str) (hp : p ∈ viaf_urls) :
    is_viaf (p ++ rest) = true := by
  have hany : viaf_urls.any (fun u => startsWith (p ++ rest) u) = true :=
    List.any_eq_true.mpr ⟨p, hp, by
      simp only [startsWith]
      exact List.isPrefixOf_iff_prefix.mpr (List.prefix_append _ _)⟩
  simp [is_viaf, hany]

/-- Witness for C10 at `http://viaf.org/viaf/` followed by the non-numeric
remainder `not-a-number`. -/
theorem C10_viaf_host_url_accepted_witness :
    (str "http://viaf.org/viaf/") ∈ viaf_urls ∧
    is_viaf (str "http://viaf.org/viaf/" ++ str "not-a-number") = true :=
  ⟨by decide, C10_viaf_host_url_accepted (str "http://viaf.org/viaf/")
    (str "not-a-number") (by decide)⟩

/-- C9: whenever detection succeeds and the effective validator names
(built-ins in declared order, then custom validators in registration
order) are distinct, the result is duplicate-free and its elements appear
as a subsequence of that name order — the special cases and filters only
delete, never reorder. -/
theorem C9_detect_ordered_nodup
    {cv : List (String × (Str → Except Unit Bool))}
    {cf : List (String × List String)} {v : Str} {l : List String}
    (hnd : ((IDUTILS_PID_SCHEMES ++ cv).map (fun p => p.1)).Nodup)
    (hd : detect_identifier_schemes cv cf v = .ok l) :
    l.Sublist ((IDUTILS_PID_SCHEMES ++ cv).map (fun p => p.1)) ∧ l.Nodup := by
  obtain ⟨s, hc, hl⟩ := detect_ok_postprocess hd
  have h1 := collectSchemes_ok_sublist hc
  have h2 : l.Sublist s := by
    rw [hl]
    exact (applyHandleNarrowing_sublist _ _).trans
      ((applyFilters_sublist _ _).trans
        ((applyViafHandleCase_sublist _ _).trans
          ((applyViafUrlCase_sublist _ _).trans (applyGndIsbnCase_sublist _ _))))
  have hsub := h2.trans h1
  exact ⟨hsub, hnd.sublist hsub⟩

/-- Witness for C9: no custom schemes, input `urn:isbn:0451450523`. -/
theorem C9_detect_ordered_nodup_witness :
    ((IDUTILS_PID_SCHEMES ++ ([] : List (String × (Str → Except Unit Bool)))).map
      (fun p => p.1)).Nodup ∧
    detect_identifier_schemes [] [] (str "urn:isbn:0451450523") = .ok ["urn", "isbn"] ∧
    (List.Sublist ["urn", "isbn"]
      ((IDUTILS_PID_SCHEMES ++ ([] : List (String × (Str → Except Unit Bool)))).map
        (fun p => p.1)) ∧
     List.Nodup ["urn", "isbn"]) :=
  ⟨by decide, rfl,
   @C9_detect_ordered_nodup [] [] (str "urn:isbn:0451450523") ["urn", "isbn"]
     (by decide) rfl⟩

theorem mem_of_mem_stripC0 {c : Char} {s : Str} (h : c ∈ stripC0 s) : c ∈ s := by
  unfold stripC0 at h
  rw [List.mem_reverse] at h
  have h2 := mem_of_mem_dropWhile h
  rw [List.mem_reverse] at h2
  exact mem_of_mem_dropWhile h2

theorem mem_of_mem_removeUnsafeBytes {c : Char} {s : Str}
    (h : c ∈ removeUnsafeBytes s) : c ∈ s :=
  (List.filter_sublist s).subset h

theorem mem_of_mem_ite_drop {c : Char} {u : Str} {b : Prop} [Decidable b] {n : Nat}
    (h : c ∈ (if b then u.drop n else u)) : c ∈ u := by
  split at h
  · exact (List.drop_sublist _ _).subset h
  · exact h

theorem mem_splitScheme_snd {c : Char} {u : Str} (h : c ∈ (splitScheme u).2) : c ∈ u := by
  simp only [splitScheme] at h
  exact mem_of_mem_ite_drop h

theorem mem_splitNetloc_fst {c : Char} {u : Str} (h : c ∈ (splitNetloc u).1) : c ∈ u := by
  unfold splitNetloc at h
  split at h
  · have hb := mem_of_mem_takeWhile (by simpa using h)
    exact (List.drop_sublist _ _).subset hb
  · simp at h

/-- An all-ASCII netloc is accepted by `_checknetloc` at its `isascii`
early exit (the NFKC branch is not consulted). -/
theorem checknetloc_ok_of_ascii {netloc : Str}
    (h : netloc.all (fun c => c.toNat < 128) = true) :
    _checknetloc netloc = .ok () := by
  unfold _checknetloc
  rw [if_pos (Or.inr h)]

/-- On an all-ASCII input without square brackets, `urlsplit` cannot reach
either of its `ValueError` branches: the netloc is carved out of the
input, so it has no brackets and is all-ASCII as well. -/
theorem urlsplit_ok_of_ascii_no_brackets {v : Str}
    (hasc : v.all (fun c => c.toNat < 128) = true)
    (h1 : '[' ∉ v) (h2 : ']' ∉ v) :
    ∃ r, urlsplit v = .ok r := by
  have hnl : ((splitNetloc (splitScheme (removeUnsafeBytes (stripC0 v))).2).1).all
      (fun c => c.toNat < 128) = true := by
    rw [List.all_eq_true]
    intro c hcmem
    have hv : c ∈ v := mem_of_mem_stripC0 (mem_of_mem_removeUnsafeBytes
      (mem_splitScheme_snd (mem_splitNetloc_fst hcmem)))
    exact List.all_eq_true.mp hasc c hv
  simp only [urlsplit]
  split
  · next hcond =>
      exfalso
      rcases hcond with ⟨ha, -⟩ | ⟨ha, -⟩
      · exact h1 (mem_of_mem_stripC0 (mem_of_mem_removeUnsafeBytes
          (mem_splitScheme_snd (mem_splitNetloc_fst ha))))
      · exact h2 (mem_of_mem_stripC0 (mem_of_mem_removeUnsafeBytes
          (mem_splitScheme_snd (mem_splitNetloc_fst ha))))
  · rw [checknetloc_ok_of_ascii hnl]
    exact ⟨_, rfl⟩

/-- C1 (as stated) is false: `urlparse`-based validators propagate
CPython's `ValueError` — `is_url` raises on the 8-character ASCII input
`http://[` (and, in CPython though outside this model's NFKC identity, on
bracket-free non-ASCII inputs such as `http://℀`). -/
theorem C1_counterexample :
    is_url (str "http://[") = .error () ∧
    is_ark (str "http://[") = .error () ∧
    is_purl (str "http://[") = .error () ∧
    is_urn (str "http://[") = .error () ∧
    is_lsid (str "http://[") = .error () :=
  ⟨rfl, rfl, rfl, rfl, rfl⟩

set_option maxHeartbeats 1000000 in
/-- C1, amended: on every all-ASCII input containing no square bracket,
the five `urlparse`-based validators return a boolean without raising
(all other validators are total boolean functions by construction). The
ASCII restriction is necessary: CPython's `_checknetloc` raises on
bracket-free non-ASCII inputs such as `http://℀`, whose netloc gains a
`/` under NFKC normalization. -/
theorem C1_no_raise_without_brackets {v : Str}
    (hasc : v.all (fun c => c.toNat < 128) = true)
    (h1 : '[' ∉ v) (h2 : ']' ∉ v) :
    (is_url v).isOk ∧ (is_urn v).isOk ∧ (is_ark v).isOk ∧
    (is_purl v).isOk ∧ (is_lsid v).isOk := by
  obtain ⟨r, hr⟩ := urlsplit_ok_of_ascii_no_brackets hasc h1 h2
  have hp : ∃ p, urlparse v = .ok p := by
    simp only [urlparse, hr]
    exact ⟨_, rfl⟩
  obtain ⟨p, hp⟩ := hp
  refine ⟨?_, ?_, ?_, ?_, ?_⟩
  · simp only [is_url, hp]
    rfl
  · simp only [is_urn, hp]
    rfl
  · simp only [is_ark, hp]
    rfl
  · simp only [is_purl, hp]
    rfl
  · simp only [is_lsid, is_urn, hp]
    rfl

/-- Witness for the amended C1 at the ASCII, bracket-free input `hello`. -/
theorem C1_no_raise_without_brackets_witness :
    (str "hello").all (fun c => c.toNat < 128) = true ∧
    '[' ∉ str "hello" ∧ ']' ∉ str "hello" ∧
    ((is_url (str "hello")).isOk ∧ (is_urn (str "hello")).isOk ∧
     (is_ark (str "hello")).isOk ∧ (is_purl (str "hello")).isOk ∧
     (is_lsid (str "hello")).isOk) :=
  ⟨by decide, by decide, by decide,
   @C1_no_raise_without_brackets (str "hello") (by decide) (by decide) (by decide)⟩
